import Mathlib

/-!
Verification development for the AODV wireless-sensor-network simulator.

The Python core (src/core/aodv.py, src/core/aodv_node.py, src/core/network.py,
src/core/sensor_node.py) is shallowly embedded:

* Python dicts become association lists (first occurrence wins, insertion
  updates in place, as for a Python dict whose keys are unique).
* Link delays and packet costs are floats in Python; they are embedded as
  `WithTop ℚ` so that `float('inf')` (returned by `get_link_cost` when no
  link exists) is `⊤` and addition with it is absorbing, as for IEEE
  infinities.  Node coordinates are `ℚ`.
* A node's `transmission_range` is represented by its square (`range_sq`):
  every use in the embedded code is a comparison or a `max` against another
  distance, and squaring is strictly monotone on nonnegative reals, so the
  encoding is exact while `sqrt` is not rational.
* Python exceptions (KeyError on a missing dict key, AttributeError on a
  `None` receiver, IndexError on list indexing) become `Except Err`;
  unbounded recursion and the dispatch-queue drain take a fuel argument and
  exhaustion is `Err.outOfFuel`.
* `random.uniform` draws are a parameter: an oracle `rng : Nat → ℚ` with a
  running index threaded through the topology-maintenance functions.
* `Network.sentRREPs` is an event log appended by `send_RREP`; it records the
  content of each emitted RREP (otherwise only observable as an argument of a
  call) and affects nothing else.
-/

/-- Python exception outcomes of the embedded code. -/
inductive Err where
  | outOfFuel
  | keyError
  | attrError
  | indexError
deriving DecidableEq, Repr

instance exceptDecEq {ε α : Type} [DecidableEq ε] [DecidableEq α] :
    DecidableEq (Except ε α) := fun a b =>
  match a, b with
  | .ok x, .ok y =>
    if h : x = y then isTrue (by rw [h]) else isFalse (fun hh => by cases hh; exact h rfl)
  | .error e, .error f =>
    if h : e = f then isTrue (by rw [h]) else isFalse (fun hh => by cases hh; exact h rfl)
  | .ok _, .error _ => isFalse (fun hh => by cases hh)
  | .error _, .ok _ => isFalse (fun hh => by cases hh)

/-- Costs and link delays: a float that may be `float('inf')`. -/
abbrev Cost := WithTop ℚ

/-- Association-list lookup: the value at the first occurrence of the key,
as for a Python dict access `d.get(k)`. -/
def alookup {α : Type} (l : List (Nat × α)) (k : Nat) : Option α :=
  match l with
  | [] => none
  | (k', v) :: rest => if k' = k then some v else alookup rest k

/-- Association-list update `d[k] = v`: replaces the value at the first
occurrence of the key in place, appends when the key is absent. -/
def ainsert {α : Type} (l : List (Nat × α)) (k : Nat) (v : α) : List (Nat × α) :=
  match l with
  | [] => [(k, v)]
  | (k', v') :: rest =>
    if k' = k then (k', v) :: rest else (k', v') :: ainsert rest k v

/-- Association-list removal `del d[k]` (no-op when absent; the embedded code
only deletes keys it has just looked up). -/
def aerase {α : Type} (l : List (Nat × α)) (k : Nat) : List (Nat × α) :=
  match l with
  | [] => []
  | (k', v') :: rest =>
    if k' = k then rest else (k', v') :: aerase rest k

/-- In-place update of one list position, `l[i] = f l[i]` (no-op out of range). -/
def listModify {α : Type} (l : List α) (i : Nat) (f : α → α) : List α :=
  match l, i with
  | [], _ => []
  | a :: rest, 0 => f a :: rest
  | a :: rest, i + 1 => a :: listModify rest i f

/-- Per-node message counters (`aodv_node.__init__`: `msg_stats`). -/
structure MsgStats where
  rreq_sent : Nat
  rreq_recv : Nat
  rrep_sent : Nat
  rrep_recv : Nat
  rerr_sent : Nat
  rerr_recv : Nat
  data_sent : Nat
  data_recv : Nat
deriving DecidableEq, Repr

/-- Routing-table entry (aodv.py `RoutingTableEntry`). -/
structure RoutingTableEntry where
  dest_id : Nat
  next_hop : Nat
  seq : Nat
  hops : Nat
  cost : Cost
deriving DecidableEq, Repr

/-- Route-request packet (aodv.py `RREQ`); `ttl` is carried but never read. -/
structure RREQ where
  broadcast_id : Nat
  dest_id : Nat
  dest_seq : Nat
  source_id : Nat
  src_seq : Nat
  hops : Nat
  ttl : Nat
  cost : Cost
deriving DecidableEq, Repr

/-- Route-reply packet (aodv.py `RREP`). -/
structure RREP where
  dest_id : Nat
  dest_seq : Nat
  source_id : Nat
  hops : Nat
  cost : Cost
  ttl : Nat
deriving DecidableEq, Repr

/-- Route-error packet (aodv.py `RERR`). -/
structure RERR where
  broadcast_id : Nat
  unreachable_nodes : List Nat
  dest_count : Nat
deriving DecidableEq, Repr

/-- Data-message packet: the dict built by `send_MSG`. -/
structure MsgPacket where
  src : Nat
  dst : Nat
  payload : String
  hops : Nat
  cost : Cost
  path : List Nat
deriving DecidableEq, Repr

/-- One pending delivery on the network dispatch queue: Python stores
`(node_obj, rreq_packet, forwarder_id)`; the receiver object is kept by id
(`none` embeds the `None` that `send_RREQ` may enqueue). -/
structure QueueItem where
  receiver : Option Nat
  rreq : RREQ
  forwarder : Nat
deriving DecidableEq, Repr

/-- A sensor node running AODV (sensor_node.py `SensorNode` plus
aodv_node.py `aodv_node` state). -/
structure Node where
  node_id : Nat
  x : ℚ
  y : ℚ
  range_sq : ℚ
  connections : List (Nat × ℚ)
  update_needed : Bool
  seq : Nat
  routing_table : List (Nat × RoutingTableEntry)
  broadcast_id : Nat
  msg_stats : MsgStats
  seen_rerrs : List (List Nat)
  seen_rreqs : List (Nat × Nat)
  received_msgs : List MsgPacket
  route_discovery_msg_count : Nat
deriving DecidableEq, Repr

/-- The sensor network (network.py `SensorNetwork`): node collection and the
FIFO dispatch queue, plus the `sentRREPs` observation log. -/
structure Network where
  nodes : List Node
  queue : List QueueItem
  sentRREPs : List RREP
deriving DecidableEq, Repr

/-- `SensorNetwork.get_node_by_id`: first node with the given id, else `None`. -/
def getNodeById (net : Network) (node_id : Nat) : Option Node :=
  net.nodes.find? (fun n => n.node_id = node_id)

/-- Applies an update to every node object with the given id (Python mutates
the one live object returned by `get_node_by_id`; ids are unique in every
network the simulator builds). -/
def modifyNode (net : Network) (node_id : Nat) (f : Node → Node) : Network :=
  { net with nodes := net.nodes.map (fun n => if n.node_id = node_id then f n else n) }

/-- Applies an update to the node at a list INDEX (`self.nodes[i]`). -/
def modifyIdx (net : Network) (i : Nat) (f : Node → Node) : Network :=
  { net with nodes := listModify net.nodes i f }

/-- Set insertion for `seen_rreqs` / `seen_rerrs` (`set.add`). -/
def saddPair (l : List (Nat × Nat)) (p : Nat × Nat) : List (Nat × Nat) :=
  if p ∈ l then l else l ++ [p]

/-- Set insertion for canonicalized RERR keys. -/
def saddKey (l : List (List Nat)) (k : List Nat) : List (List Nat) :=
  if k ∈ l then l else l ++ [k]

/-- `self.msg_stats['rreq_sent'] += 1`. -/
def bumpRreqSent (n : Node) : Node :=
  { n with msg_stats := { n.msg_stats with rreq_sent := n.msg_stats.rreq_sent + 1 } }

/-- `self.msg_stats['rreq_recv'] += 1`. -/
def bumpRreqRecv (n : Node) : Node :=
  { n with msg_stats := { n.msg_stats with rreq_recv := n.msg_stats.rreq_recv + 1 } }

/-- `self.msg_stats['rrep_sent'] += 1`. -/
def bumpRrepSent (n : Node) : Node :=
  { n with msg_stats := { n.msg_stats with rrep_sent := n.msg_stats.rrep_sent + 1 } }

/-- `self.msg_stats['rrep_recv'] += 1`. -/
def bumpRrepRecv (n : Node) : Node :=
  { n with msg_stats := { n.msg_stats with rrep_recv := n.msg_stats.rrep_recv + 1 } }

/-- `self.msg_stats['data_sent'] += 1`. -/
def bumpDataSent (n : Node) : Node :=
  { n with msg_stats := { n.msg_stats with data_sent := n.msg_stats.data_sent + 1 } }

/-- `self.route_discovery_msg_count += 1`. -/
def bumpRouteDiscoveryCount (n : Node) : Node :=
  { n with route_discovery_msg_count := n.route_discovery_msg_count + 1 }

/-- The origination bookkeeping of `broadcast_RREQ` / `send_RREQ`: increment
`seq` and `broadcast_id`, count `rreq_sent`, record the seen pair. -/
def noteRreqSent (pair : Nat × Nat) (n : Node) : Node :=
  { n with seq := n.seq + 1, broadcast_id := n.broadcast_id + 1,
           msg_stats := { n.msg_stats with rreq_sent := n.msg_stats.rreq_sent + 1 },
           seen_rreqs := saddPair n.seen_rreqs pair }

/-- The reception bookkeeping of `receive_RREQ`: record the seen pair and
count `rreq_recv`. -/
def noteRreqSeen (pair : Nat × Nat) (n : Node) : Node :=
  { n with seen_rreqs := saddPair n.seen_rreqs pair,
           msg_stats := { n.msg_stats with rreq_recv := n.msg_stats.rreq_recv + 1 } }

/-- `self.seq = max(self.seq, d)`. -/
def setSeqMax (d : Nat) (n : Node) : Node :=
  { n with seq := max n.seq d }

/-- The send bookkeeping of `send_RERR`: count `rerr_sent`, record the key. -/
def noteRerrSent (key : List Nat) (n : Node) : Node :=
  { n with msg_stats := { n.msg_stats with rerr_sent := n.msg_stats.rerr_sent + 1 },
           seen_rerrs := saddKey n.seen_rerrs key }

/-- The receive bookkeeping of `receive_RERR`: record the key, count
`rerr_recv`. -/
def noteRerrRecv (key : List Nat) (n : Node) : Node :=
  { n with seen_rerrs := saddKey n.seen_rerrs key,
           msg_stats := { n.msg_stats with rerr_recv := n.msg_stats.rerr_recv + 1 } }

/-- `receive_RERR`'s deletion loop over the named unreachable destinations. -/
def dropRoutes (ids : List Nat) (n : Node) : Node :=
  let rt := ids.foldl
    (fun rt nid => if (alookup rt nid).isSome then aerase rt nid else rt)
    n.routing_table
  { n with routing_table := rt }

/-- `del self.routing_table[d]`. -/
def eraseRoute (d : Nat) (n : Node) : Node :=
  { n with routing_table := aerase n.routing_table d }

/-- Local delivery bookkeeping of `receive_MSG`: count `data_recv`, record the
message. -/
def noteDataRecv (pkt : MsgPacket) (n : Node) : Node :=
  { n with msg_stats := { n.msg_stats with data_recv := n.msg_stats.data_recv + 1 },
           received_msgs := n.received_msgs ++ [pkt] }

/-- `node.connections[b] = d` plus the update flag (the body of `add_link`). -/
def setConnection (b : Nat) (d : ℚ) (n : Node) : Node :=
  { n with connections := ainsert n.connections b d, update_needed := true }

/-- `del node.connections[b]` plus the update flag (the body of `remove_link`). -/
def dropConnection (b : Nat) (n : Node) : Node :=
  { n with connections := aerase n.connections b, update_needed := true }

/-- `node.transmission_range = max(range, 1.1 * distance)`, squared. -/
def widenRange (dsq : ℚ) (n : Node) : Node :=
  { n with range_sq := max n.range_sq ((121 : ℚ) / 100 * dsq) }

/-- Appends an emitted RREP to the observation log. -/
def logRREP (net : Network) (r : RREP) : Network :=
  { net with sentRREPs := net.sentRREPs ++ [r] }

/-- `SensorNetwork.get_link_cost`: the delay of the link, `⊤` (inf) when
either node is missing or no link exists in either direction. -/
def getLinkCost (net : Network) (node_a_id node_b_id : Nat) : Cost :=
  match getNodeById net node_a_id, getNodeById net node_b_id with
  | some node_a, some node_b =>
    match alookup node_a.connections node_b_id with
    | some d => (d : ℚ)
    | none =>
      match alookup node_b.connections node_a_id with
      | some d => (d : ℚ)
      | none => ⊤
  | _, _ => ⊤

/-- `SensorNetwork.link_exists`: both nodes exist and each lists the other. -/
def linkExists (net : Network) (node_a_id node_b_id : Nat) : Bool :=
  match getNodeById net node_a_id, getNodeById net node_b_id with
  | some node_a, some node_b =>
    (alookup node_a.connections node_b_id).isSome &&
      (alookup node_b.connections node_a_id).isSome
  | _, _ => false

/-- `SensorNode.add_connection`: sets the delay and the update flag. -/
def addConnection (n : Node) (other_node_id : Nat) (delay : ℚ) : Node :=
  { n with connections := ainsert n.connections other_node_id delay, update_needed := true }

/-- `SensorNode.get_neighbors`: the neighbor ids in dict order. -/
def getNeighbors (n : Node) : List Nat :=
  n.connections.map Prod.fst

/-- `SensorNetwork.add_link`: sets the delay on both endpoints, unconditionally
(AttributeError when either id has no node). -/
def addLink (net : Network) (node_a_id node_b_id : Nat) (delay : ℚ) :
    Except Err Network :=
  match getNodeById net node_a_id, getNodeById net node_b_id with
  | some _, some _ =>
    let net1 := modifyNode net node_a_id (setConnection node_b_id delay)
    let net2 := modifyNode net1 node_b_id (setConnection node_a_id delay)
    .ok net2
  | _, _ => .error .attrError

/-- `aodv_node.isDuplicate`: `(source_id, broadcast_id)` already seen. -/
def isDuplicate (n : Node) (rreq : RREQ) : Bool :=
  (rreq.source_id, rreq.broadcast_id) ∈ n.seen_rreqs

/-- `aodv_node.update_RT`: installs the candidate when (1) no current entry,
(2) the current entry's next-hop link is gone, (3) the candidate's seq is
strictly newer, or (4) seqs tie and the candidate's cost is strictly smaller;
otherwise leaves the table unchanged.  Returns the updated node and whether
an update was made. -/
def updateRT (net : Network) (self : Node) (dest_id : Nat)
    (new_route : RoutingTableEntry) : Node × Bool :=
  match alookup self.routing_table dest_id with
  | none =>
    ({ self with routing_table := ainsert self.routing_table dest_id new_route }, true)
  | some current =>
    if ¬ linkExists net self.node_id current.next_hop then
      ({ self with routing_table := ainsert self.routing_table dest_id new_route }, true)
    else if new_route.seq > current.seq then
      ({ self with routing_table := ainsert self.routing_table dest_id new_route }, true)
    else if new_route.seq = current.seq ∧ new_route.cost < current.cost then
      ({ self with routing_table := ainsert self.routing_table dest_id new_route }, true)
    else
      (self, false)

/-- `aodv_node.broadcast_RREQ`: returns at once when the destination is the
node itself; otherwise increments `seq` and `broadcast_id`, records the pair
in `seen_rreqs`, counts `rreq_sent`, and enqueues the RREQ to every existing
neighbor. -/
def broadcastRREQ (net : Network) (self : Node) (dest_id : Nat) : Network :=
  if dest_id = self.node_id then net
  else
    let newSeq := self.seq + 1
    let newBid := self.broadcast_id + 1
    let rreq : RREQ :=
      { broadcast_id := newBid, dest_id := dest_id, dest_seq := 0,
        source_id := self.node_id, src_seq := newSeq, hops := 0, ttl := 300, cost := 0 }
    let net1 := modifyNode net self.node_id
      (noteRreqSent (rreq.source_id, rreq.broadcast_id))
    (getNeighbors self).foldl
      (fun acc neighbor_id =>
        match getNodeById acc neighbor_id with
        | some neighbor =>
          { acc with queue := acc.queue ++
              [{ receiver := some neighbor.node_id, rreq := rreq, forwarder := self.node_id }] }
        | none => acc)
      net1

/-- `aodv_node.send_RREQ`: like `broadcast_RREQ` but enqueues a single item
addressed straight to the destination node (which may be `None`). -/
def sendRREQ (net : Network) (self : Node) (dest_id : Nat) : Network :=
  if dest_id = self.node_id then net
  else
    let newSeq := self.seq + 1
    let newBid := self.broadcast_id + 1
    let rreq : RREQ :=
      { broadcast_id := newBid, dest_id := dest_id, dest_seq := 0,
        source_id := self.node_id, src_seq := newSeq, hops := 0, ttl := 300, cost := 0 }
    let net1 := modifyNode net self.node_id
      (noteRreqSent (rreq.source_id, rreq.broadcast_id))
    { net1 with queue := net1.queue ++
        [{ receiver := (getNodeById net1 dest_id).map (fun n => n.node_id),
           rreq := rreq, forwarder := self.node_id }] }

/-- `aodv_node.forward_RREQ`: counts `rreq_recv` (again) and enqueues, to every
neighbor other than the forwarder, a copy with one more hop and the cost of
the link to the forwarder added. -/
def forwardRREQ (net : Network) (self_id : Nat) (rreq : RREQ) (forwarder_id : Nat) :
    Except Err Network :=
  match getNodeById net self_id with
  | none => .error .attrError
  | some self =>
    let net1 := modifyNode net self_id bumpRreqRecv
    .ok ((getNeighbors self).foldl
      (fun acc neighbor_id =>
        if neighbor_id = forwarder_id then acc
        else
          match getNodeById acc neighbor_id with
          | some neighbor =>
            let fwd : RREQ :=
              { rreq with
                hops := rreq.hops + 1
                cost := rreq.cost + getLinkCost acc self_id forwarder_id }
            { acc with queue := acc.queue ++
                [{ receiver := some neighbor.node_id, rreq := fwd, forwarder := self_id }] }
          | none => acc)
      net1)

/-- `aodv_node.discover_neighbors`: for each neighbor with no routing entry,
counts `rreq_sent` and calls `send_RREQ` at it (which enqueues the one-hop
RREQ; nothing is delivered by this call). -/
def discoverNeighbors (net : Network) (self_id : Nat) : Network :=
  match getNodeById net self_id with
  | none => net
  | some self0 =>
    (getNeighbors self0).foldl
      (fun acc neighbor_id =>
        match getNodeById acc self_id with
        | none => acc
        | some self =>
          if (alookup self.routing_table neighbor_id).isSome then acc
          else
            match getNodeById acc neighbor_id with
            | some _ =>
              let acc1 := modifyNode acc self_id bumpRreqSent
              match getNodeById acc1 self_id with
              | some selfNow => sendRREQ acc1 selfNow neighbor_id
              | none => acc1
            | none => acc)
      net

/-- `SensorNetwork.neighbor_discovery`: `discover_neighbors` on every node. -/
def neighborDiscovery (net : Network) : Network :=
  (net.nodes.map (fun n => n.node_id)).foldl discoverNeighbors net

/-- Stable ascending insertion for `listSort`. -/
def sortedInsert (a : Nat) : List Nat → List Nat
  | [] => [a]
  | b :: rest => if a ≤ b then a :: b :: rest else b :: sortedInsert a rest

/-- Python's `sorted` on a list of ints (ascending). -/
def listSort (l : List Nat) : List Nat :=
  l.foldr sortedInsert []

/-- Node lookup that raises Python's AttributeError when the id has no node
(the code would call a method on `None`). -/
def getN (net : Network) (node_id : Nat) : Except Err Node :=
  match getNodeById net node_id with
  | some n => .ok n
  | none => .error .attrError

mutual

/-- `aodv_node.receive_RERR`: drop when the canonical key was seen; else
record it, count `rerr_recv`, delete every named destination from the
routing table, and forward to every neighbor except the forwarder. -/
def receiveRERR (fuel : Nat) (net : Network) (self_id : Nat) (rerr : RERR)
    (forwarder_id : Nat) : Except Err Network :=
  match fuel with
  | 0 => .error .outOfFuel
  | fuel + 1 => do
    let self ← getN net self_id
    let key := listSort rerr.unreachable_nodes
    if key ∈ self.seen_rerrs then .ok net
    else
      let net1 := modifyNode net self_id (noteRerrRecv key)
      let net2 := modifyNode net1 self_id (dropRoutes rerr.unreachable_nodes)
      rerrFanout fuel net2 (getNeighbors self) self_id rerr (some forwarder_id)
termination_by structural fuel

/-- Synchronous delivery of one RERR to a list of neighbors, skipping the
forwarder when one is given (the loop bodies of `send_RERR` and
`receive_RERR`). -/
def rerrFanout (fuel : Nat) (net : Network) (neighbors : List Nat) (sender_id : Nat)
    (rerr : RERR) (skip : Option Nat) : Except Err Network :=
  match fuel with
  | 0 => .error .outOfFuel
  | fuel + 1 =>
    match neighbors with
    | [] => .ok net
    | nid :: rest =>
      if skip = some nid then rerrFanout fuel net rest sender_id rerr skip
      else
        match getNodeById net nid with
        | some neighbor => do
          let net1 ← receiveRERR fuel net neighbor.node_id rerr sender_id
          rerrFanout fuel net1 rest sender_id rerr skip
        | none => rerrFanout fuel net rest sender_id rerr skip
termination_by structural fuel

end

/-- `aodv_node.send_RERR`: no-op on an empty list; else count `rerr_sent`,
record the canonical key, and deliver synchronously to every neighbor. -/
def sendRERR (fuel : Nat) (net : Network) (self_id : Nat) (unreachable : List Nat) :
    Except Err Network :=
  if unreachable = [] then .ok net
  else do
    let self ← getN net self_id
    let rerr : RERR :=
      { broadcast_id := 0, unreachable_nodes := unreachable,
        dest_count := unreachable.length }
    let key := listSort rerr.unreachable_nodes
    let net1 := modifyNode net self_id (noteRerrSent key)
    rerrFanout fuel net1 (getNeighbors self) self_id rerr none

/-- Return triple of `receive_MSG` / `send_MSG`: `(hops, path, cost)` with
Python `None` as `none`. -/
abbrev MsgRet := Option Nat × List Nat × Option Cost

/-- Return triple of `simulate_message_transmission`: `(path, hops, cost)`. -/
abbrev SimRet := Option (List Nat) × Option Nat × Option Cost

/-- `aodv_node.receive_RREP`: count `rrep_recv`, add one hop and the link
cost, install the route to the RREP originator via `update_RT`, then stop at
the RREQ source or forward along the route to it (counting
`route_discovery_msg_count` after the forward returns); drop when no route. -/
def receiveRREP (fuel : Nat) (net : Network) (self_id : Nat) (rrep : RREP)
    (forwarder_id : Nat) : Except Err Network :=
  match fuel with
  | 0 => .error .outOfFuel
  | fuel + 1 => do
    let _ ← getN net self_id
    let net1 := modifyNode net self_id bumpRrepRecv
    let rrep1 :=
      { rrep with hops := rrep.hops + 1
                  cost := rrep.cost + getLinkCost net1 self_id forwarder_id }
    let new_route : RoutingTableEntry :=
      { dest_id := rrep1.source_id, next_hop := forwarder_id, seq := rrep1.dest_seq,
        hops := rrep1.hops, cost := rrep1.cost }
    let selfNow ← getN net1 self_id
    let selfUpd := (updateRT net1 selfNow rrep1.source_id new_route).1
    let net2 := modifyNode net1 self_id (fun _ => selfUpd)
    if rrep1.dest_id = self_id then .ok net2
    else
      match alookup selfUpd.routing_table rrep1.dest_id with
      | some e => do
        let next_node ← getN net2 e.next_hop
        let net3 ← receiveRREP fuel net2 next_node.node_id rrep1 self_id
        .ok (modifyNode net3 self_id bumpRouteDiscoveryCount)
      | none => .ok net2
termination_by structural fuel

/-- `aodv_node.send_RREP`: count `rrep_sent`, log the packet, and deliver it
synchronously to the next hop toward the RREQ originator; drop when no route
back exists. -/
def sendRREP (fuel : Nat) (net : Network) (self_id : Nat) (source_id dest_id : Nat)
    (seq hops : Nat) (cost : Cost) : Except Err Network :=
  match fuel with
  | 0 => .error .outOfFuel
  | fuel + 1 => do
    let rrep : RREP :=
      { dest_id := dest_id, dest_seq := seq, source_id := source_id,
        hops := hops, cost := cost, ttl := 300 }
    let net1 := modifyNode net self_id bumpRrepSent
    let net2 := logRREP net1 rrep
    let self ← getN net2 self_id
    match alookup self.routing_table dest_id with
    | some e => do
      let next_node ← getN net2 e.next_hop
      receiveRREP fuel net2 next_node.node_id rrep self_id
    | none => .ok net2

/-- `aodv_node.receive_RREQ`: duplicate RREQs are dropped with no state
change; otherwise record and count it, install the reverse route via
`update_RT`, then answer as destination, answer from the table, or forward. -/
def receiveRREQ (fuel : Nat) (net : Network) (self_id : Nat) (rreq : RREQ)
    (forwarder_id : Nat) : Except Err Network :=
  match fuel with
  | 0 => .error .outOfFuel
  | fuel + 1 => do
    let self ← getN net self_id
    if isDuplicate self rreq then .ok net
    else
      let net1 := modifyNode net self_id
        (noteRreqSeen (rreq.source_id, rreq.broadcast_id))
      let link_cost := getLinkCost net1 self_id forwarder_id
      let new_route : RoutingTableEntry :=
        { dest_id := rreq.source_id, next_hop := forwarder_id, seq := rreq.src_seq,
          hops := rreq.hops + 1, cost := rreq.cost + link_cost }
      let selfNow ← getN net1 self_id
      let selfUpd := (updateRT net1 selfNow rreq.source_id new_route).1
      let net2 := modifyNode net1 self_id (fun _ => selfUpd)
      if rreq.dest_id = self_id then
        let newSeq := max selfUpd.seq rreq.dest_seq
        let net3 := modifyNode net2 self_id (setSeqMax rreq.dest_seq)
        sendRREP fuel net3 self_id self_id rreq.source_id newSeq 0 0
      else
        match alookup selfUpd.routing_table rreq.dest_id with
        | some route =>
          if linkExists net2 self_id route.next_hop ∧
              (route.seq > rreq.dest_seq ∨
                (route.seq = rreq.dest_seq ∧ route.cost < rreq.cost)) then
            sendRREP fuel net2 self_id rreq.dest_id rreq.source_id
              route.seq route.hops route.cost
          else
            forwardRREQ net2 self_id rreq forwarder_id
        | none => forwardRREQ net2 self_id rreq forwarder_id

/-- The `while self.queue:` loop of `SensorNetwork.route_discovery`: pop the
head and deliver it via `receive_RREQ` until the queue is empty. -/
def drainQueue (fuel : Nat) (net : Network) : Except Err Network :=
  match fuel with
  | 0 => .error .outOfFuel
  | fuel + 1 =>
    match net.queue with
    | [] => .ok net
    | item :: rest =>
      match item.receiver with
      | none => .error .attrError
      | some rid => do
        let net1 ← receiveRREQ fuel { net with queue := rest } rid item.rreq item.forwarder
        drainQueue fuel net1
termination_by structural fuel

/-- `SensorNetwork.route_discovery`: `broadcast_RREQ` at the source, then
drain the dispatch queue to a fixpoint. -/
def routeDiscovery (fuel : Nat) (net : Network) (src_id dst_id : Nat) :
    Except Err Network :=
  match fuel with
  | 0 => .error .outOfFuel
  | fuel + 1 => do
    let src_node ← getN net src_id
    drainQueue fuel (broadcastRREQ net src_node dst_id)

/-- `aodv_node.receive_MSG`: append self to the path; invalidate and report a
looping route (re-triggering discovery at the source); deliver locally at the
destination; else look the next hop up — running `route_discovery` in-line
when the destination is absent from the table — and forward synchronously.
Returns the final network, the packet (mutated in place in Python), and the
return triple. -/
def receiveMSG (fuel : Nat) (net : Network) (self_id : Nat) (pkt0 : MsgPacket)
    (sender_id : Nat) : Except Err (Network × MsgPacket × MsgRet) :=
  match fuel with
  | 0 => .error .outOfFuel
  | fuel + 1 => do
    let self ← getN net self_id
    let pkt1 := { pkt0 with path := pkt0.path ++ [self_id] }
    let dst_id := pkt1.dst
    let nextHop? := (alookup self.routing_table dst_id).map (fun e => e.next_hop)
    let loopDetected : Bool :=
      match nextHop? with
      | some nh => pkt1.path.contains nh
      | none => false
    if loopDetected then do
      let net1 := modifyNode net self_id (eraseRoute dst_id)
      let net2 ← sendRERR fuel net1 self_id [dst_id]
      let net3 ←
        if pkt1.src = self_id then routeDiscovery fuel net2 self_id dst_id
        else .ok net2
      .ok (net3, pkt1, (none, pkt1.path, some pkt1.cost))
    else
      let pkt2 := { pkt1 with hops := pkt1.hops + 1
                              cost := pkt1.cost + getLinkCost net self_id sender_id }
      if self_id = dst_id then
        let net1 := modifyNode net self_id (noteDataRecv pkt2)
        .ok (net1, pkt2, (some pkt2.hops, pkt2.path, some pkt2.cost))
      else do
        let net1 ←
          if (alookup self.routing_table dst_id).isNone then
            routeDiscovery fuel net self_id dst_id
          else .ok net
        let selfNow ← getN net1 self_id
        match alookup selfNow.routing_table dst_id with
        | none => .error .keyError
        | some e => do
          let next_node ← getN net1 e.next_hop
          receiveMSG fuel net1 next_node.node_id pkt2 self_id
termination_by structural fuel

/-- `aodv_node.can_send`: a route to `dst` must exist and its next-hop link be
alive; on a dead next hop, emit a RERR for every destination routed through
it and report `false`. -/
def canSend (fuel : Nat) (net : Network) (self_id dst_id : Nat) :
    Except Err (Network × Bool) := do
  let self ← getN net self_id
  if self.routing_table = [] then .ok (net, false)
  else
    match alookup self.routing_table dst_id with
    | none => .ok (net, false)
    | some e =>
      let next_hop := e.next_hop
      let potential := (self.routing_table.filter
        (fun p => p.2.next_hop = next_hop)).map (fun p => p.2.dest_id)
      if ¬ linkExists net self_id next_hop then do
        let net1 ← sendRERR fuel net self_id potential
        .ok (net1, false)
      else .ok (net, true)

/-- `aodv_node.send_MSG`: `(None, [], None)` to self; otherwise read the next
hop (KeyError when there is no route), build the packet, count `data_sent`,
forward synchronously, and return the packet's final `(hops, path, cost)`. -/
def sendMSG (fuel : Nat) (net : Network) (self_id dst_id : Nat) (msg : String) :
    Except Err (Network × MsgRet) :=
  if dst_id = self_id then .ok (net, (none, [], none))
  else do
    let self ← getN net self_id
    match alookup self.routing_table dst_id with
    | none => .error .keyError
    | some e => do
      let pkt : MsgPacket :=
        { src := self_id, dst := dst_id, payload := msg, hops := 0, cost := 0,
          path := [self_id] }
      let net1 := modifyNode net self_id bumpDataSent
      let next_node ← getN net1 e.next_hop
      let (net2, pktF, _) ← receiveMSG fuel net1 next_node.node_id pkt self_id
      .ok (net2, (some pktF.hops, pktF.path, some pktF.cost))

/-- `SensorNetwork.simulate_message_transmission`: send directly when
`can_send` holds; otherwise one `route_discovery` and one retry; `(None,
None, None)` when the retry's `can_send` also fails. -/
def simulateMessageTransmission (fuel : Nat) (net : Network)
    (source_id target_id : Nat) (message : String) :
    Except Err (Network × SimRet) := do
  let (netA, okA) ← canSend fuel net source_id target_id
  if okA then do
    let (netB, ret) ← sendMSG fuel netA source_id target_id message
    .ok (netB, (some ret.2.1, ret.1, ret.2.2))
  else do
    let netC ← routeDiscovery fuel netA source_id target_id
    let (netD, okD) ← canSend fuel netC source_id target_id
    if okD then do
      let (netE, ret) ← sendMSG fuel netD source_id target_id message
      .ok (netE, (some ret.2.1, ret.1, ret.2.2))
    else .ok (netD, (none, none, none))

/-- List indexing `self.nodes[i]` (IndexError when out of range). -/
def getIdx (net : Network) (i : Nat) : Except Err Node :=
  match net.nodes[i]? with
  | some n => .ok n
  | none => .error .indexError

/-- Squared Euclidean distance (`SensorNode.distance_to` squared; the code
only compares distances and multiplies them by constants, and squaring is
strictly monotone on nonnegative reals). -/
def distSq (a b : Node) : ℚ :=
  (a.x - b.x) ^ 2 + (a.y - b.y) ^ 2

/-- Every id the network can ever put on a BFS/DFS worklist: the list indices
and every connection key.  (Termination measure only.) -/
def idSupport (net : Network) : Finset Nat :=
  (List.range net.nodes.length).toFinset ∪
    ((net.nodes.map (fun nd => nd.connections.map Prod.fst)).flatten).toFinset

/-- The body of the BFS `for`-loop: mark each not-yet-visited neighbor
visited and append it to the queue complex (`visited.add`, `queue.append`). -/
def enqueueFresh (l : List (Nat × ℚ)) (v q : List Nat) : List Nat × List Nat :=
  match l with
  | [] => (v, q)
  | (i, _) :: rest =>
    if i ∈ v then enqueueFresh rest v q
    else enqueueFresh rest (i :: v) (q ++ [i])

theorem enqueueFresh_cases (l : List (Nat × ℚ)) (v q : List Nat) :
    enqueueFresh l v q = (v, q) ∨
      (v.toFinset ⊂ (enqueueFresh l v q).1.toFinset ∧
        (enqueueFresh l v q).1.toFinset ⊆ v.toFinset ∪ (l.map Prod.fst).toFinset) := by
  induction l generalizing v q with
  | nil => exact Or.inl rfl
  | cons p rest ih =>
    obtain ⟨i, c⟩ := p
    by_cases hi : i ∈ v
    · rw [show enqueueFresh ((i, c) :: rest) v q = enqueueFresh rest v q by
        simp [enqueueFresh, hi]]
      rcases ih v q with h | h
      · exact Or.inl h
      · refine Or.inr ⟨h.1, h.2.trans ?_⟩
        intro x hx
        simp only [Finset.mem_union, List.map_cons, List.toFinset_cons,
          Finset.mem_insert] at *
        tauto
    · rw [show enqueueFresh ((i, c) :: rest) v q = enqueueFresh rest (i :: v) (q ++ [i]) by
        simp [enqueueFresh, hi]]
      rcases ih (i :: v) (q ++ [i]) with h | h
      · rw [h]
        refine Or.inr ⟨⟨?_, ?_⟩, ?_⟩
        · intro x hx; simp at hx ⊢; tauto
        · intro hsub
          have := hsub (by simp : i ∈ (i :: v).toFinset)
          simp at this
          exact hi this
        · intro x hx; simp at hx ⊢; tauto
      · refine Or.inr ⟨?_, ?_⟩
        · refine lt_of_le_of_lt ?_ h.1
          intro x hx; simp at hx ⊢; tauto
        · refine h.2.trans ?_
          intro x hx; simp at hx ⊢; tauto

theorem connections_subset_idSupport (net : Network) (nd : Node) (hnd : nd ∈ net.nodes) :
    ∀ x ∈ ((nd.connections.map Prod.fst).toFinset : Finset Nat), x ∈ idSupport net := by
  intro x hx
  simp only [idSupport, Finset.mem_union, List.mem_toFinset, List.mem_flatten]
  right
  refine ⟨nd.connections.map Prod.fst, ?_, by simpa using hx⟩
  exact List.mem_map.mpr ⟨nd, hnd, rfl⟩

theorem range_subset_idSupport (net : Network) (i : Nat) (h : i < net.nodes.length) :
    i ∈ idSupport net := by
  simp only [idSupport, Finset.mem_union, List.mem_toFinset, List.mem_range]
  exact Or.inl h

/-- The `while queue:` loop of `SensorNetwork._is_network_fully_connected`:
pop the head, visit its node's neighbors. -/
def bfsLoop (net : Network) (visited : List Nat) (queue : List Nat) :
    Except Err (List Nat) :=
  match queue with
  | [] => .ok visited
  | c :: rest =>
    match hg : net.nodes[c]? with
    | none => .error .indexError
    | some nd =>
      bfsLoop net (enqueueFresh nd.connections visited rest).1
        (enqueueFresh nd.connections visited rest).2
termination_by ((idSupport net \ visited.toFinset).card, queue.length)
decreasing_by
  rcases enqueueFresh_cases nd.connections visited rest with hc | hc
  · rw [hc]
    exact Prod.Lex.right _ (by simp)
  · apply Prod.Lex.left
    apply Finset.card_lt_card
    constructor
    · exact Finset.sdiff_subset_sdiff le_rfl hc.1.1
    · intro hsub
      obtain ⟨x, hx1, hx2⟩ := Finset.exists_of_ssubset hc.1
      have hxs : x ∈ idSupport net := by
        have hsub2 := hc.2 hx1
        rcases Finset.mem_union.mp hsub2 with h1 | h1
        · exact absurd h1 hx2
        · exact connections_subset_idSupport net nd
            (List.getElem?_mem hg) x h1
      have hmem : x ∈ idSupport net \ visited.toFinset := Finset.mem_sdiff.mpr ⟨hxs, hx2⟩
      have := hsub hmem
      simp only [Finset.mem_sdiff] at this
      exact this.2 hx1

/-- `SensorNetwork._is_network_fully_connected`: an empty network counts as
connected; otherwise BFS from node 0 and compare the visited count with the
node count. -/
def isNetworkFullyConnected (net : Network) : Except Err Bool :=
  if net.nodes = [] then .ok true
  else do
    let visited ← bfsLoop net [0] [0]
    .ok (visited.length = net.nodes.length)

/-- The inner `while stack:` loop of component discovery
(`_ensure_fully_connected_network` / `_connect_all_components`): Python pops
from the end of the stack; the embedding keeps the stack reversed (head =
top), so a push appends the filtered neighbor list reversed. -/
def dfsLoop (net : Network) (comp : List Nat) (stack : List Nat) :
    Except Err (List Nat) :=
  match stack with
  | [] => .ok comp
  | c :: rest =>
    if c ∈ comp then dfsLoop net comp rest
    else
      match hg : net.nodes[c]? with
      | none => .error .indexError
      | some nd =>
        dfsLoop net (c :: comp)
          (((getNeighbors nd).filter (fun nb => !((c :: comp).contains nb))).reverse ++ rest)
termination_by ((idSupport net \ comp.toFinset).card, stack.length)
decreasing_by
  · exact Prod.Lex.right _ (by simp)
  · rename_i hbranch
    apply Prod.Lex.left
    apply Finset.card_lt_card
    constructor
    · refine Finset.sdiff_subset_sdiff le_rfl ?_
      intro z hz
      simp at hz ⊢
      tauto
    · intro hsub
      have hcs : b ∈ idSupport net := by
        refine range_subset_idSupport net b ?_
        exact (List.getElem?_eq_some_iff.mp hg).1
      have hmem : b ∈ idSupport net \ comp.toFinset := by
        exact Finset.mem_sdiff.mpr ⟨hcs, by simpa using hbranch⟩
      have := hsub hmem
      simp at this

/-- The outer component-enumeration loop shared by
`_ensure_fully_connected_network` and `_connect_all_components`. -/
def componentsGo (net : Network) : List Nat → List Nat → List (List Nat) →
    Except Err (List (List Nat))
  | [], _, comps => .ok comps
  | i :: rest, visited, comps =>
    if i ∈ visited then componentsGo net rest visited comps
    else do
      let comp ← dfsLoop net [] [i]
      componentsGo net rest (visited ++ comp) (comps ++ [comp])

/-- Connected components in discovery order. -/
def componentsOf (net : Network) : Except Err (List (List Nat)) :=
  componentsGo net (List.range net.nodes.length) [] []

/-- The nested closest-pair search over two components: track the best pair
and its (squared) distance, starting from `float('inf')`. -/
def closestPairGo (net : Network) : List (Nat × Nat) → Option (Nat × Nat) → Cost →
    Except Err (Option (Nat × Nat))
  | [], best, _ => .ok best
  | (a, b) :: rest, best, bestD => do
    let na ← getIdx net a
    let nb ← getIdx net b
    let d : Cost := ((distSq na nb : ℚ) : Cost)
    if d < bestD then closestPairGo net rest (some (a, b)) d
    else closestPairGo net rest best bestD

/-- Closest cross-component node pair by Euclidean distance. -/
def closestPair (net : Network) (c1 c2 : List Nat) : Except Err (Option (Nat × Nat)) :=
  closestPairGo net ((c1.map (fun a => c2.map (fun b => (a, b)))).flatten) none ⊤

/-- Link two components: pick the closest pair, widen both transmission
ranges to `1.1 ×` the distance when needed (squared: `121/100 ×` the squared
distance), and install a bidirectional link with the next random delay. -/
def linkOne (rng : Nat → ℚ) (net : Network) (ridx : Nat) (c1 c2 : List Nat) :
    Except Err (Network × Nat) := do
  let p ← closestPair net c1 c2
  match p with
  | none => .ok (net, ridx)
  | some (a, b) => do
    let na ← getIdx net a
    let nb ← getIdx net b
    let dsq := distSq na nb
    let net1 := modifyIdx net a (widenRange dsq)
    let net2 := modifyIdx net1 b (widenRange dsq)
    let delay := rng ridx
    let net3 := modifyIdx net2 a (fun n => addConnection n b delay)
    let net4 := modifyIdx net3 b (fun n => addConnection n a delay)
    .ok (net4, ridx + 1)

/-- The `for i in range(len(components) - 1)` loop of
`_ensure_fully_connected_network`: link each consecutive component pair. -/
def linkChain (rng : Nat → ℚ) : List (List Nat) → Network → Nat →
    Except Err (Network × Nat)
  | c1 :: c2 :: rest, net, ridx => do
    let (net1, r1) ← linkOne rng net ridx c1 c2
    linkChain rng (c2 :: rest) net1 r1
  | _, net, ridx => .ok (net, ridx)

/-- Inner loop of `_connect_all_components`: link `c` with each later
component. -/
def linkPairsWith (rng : Nat → ℚ) (c : List Nat) : List (List Nat) → Network → Nat →
    Except Err (Network × Nat)
  | [], net, ridx => .ok (net, ridx)
  | c2 :: rest, net, ridx => do
    let (net1, r1) ← linkOne rng net ridx c c2
    linkPairsWith rng c rest net1 r1

/-- Outer loop of `_connect_all_components`: all component pairs in index
order. -/
def linkAllFrom (rng : Nat → ℚ) : List (List Nat) → Network → Nat →
    Except Err (Network × Nat)
  | [], net, ridx => .ok (net, ridx)
  | c :: rest, net, ridx => do
    let (net1, r1) ← linkPairsWith rng c rest net ridx
    linkAllFrom rng rest net1 r1

/-- `SensorNetwork._connect_all_components`: recompute the components and
link every pair (the trailing connectivity check only prints). -/
def connectAllComponents (rng : Nat → ℚ) (net : Network) (ridx : Nat) :
    Except Err (Network × Nat) := do
  let comps ← componentsOf net
  linkAllFrom rng comps net ridx

/-- `SensorNetwork._ensure_fully_connected_network`: return when already
connected; else link consecutive components, re-check, and fall back to the
aggressive all-pairs variant. -/
def ensureFullyConnected (rng : Nat → ℚ) (net : Network) (ridx : Nat) :
    Except Err (Network × Nat) := do
  let c ← isNetworkFullyConnected net
  if c then .ok (net, ridx)
  else do
    let comps ← componentsOf net
    let (net1, r1) ← linkChain rng comps net ridx
    let c2 ← isNetworkFullyConnected net1
    if c2 then .ok (net1, r1)
    else connectAllComponents rng net1 r1

/-- `SensorNetwork.remove_link`: delete both directions of the link (setting
the update flags), then restore connectivity when the graph fell apart. -/
def removeLink (rng : Nat → ℚ) (net : Network) (ridx : Nat) (node_a_id node_b_id : Nat) :
    Except Err (Network × Nat) :=
  match getNodeById net node_a_id, getNodeById net node_b_id with
  | some node_a, some node_b =>
    let net1 :=
      if (alookup node_a.connections node_b_id).isSome then
        modifyNode net node_a_id (dropConnection node_b_id)
      else net
    let net2 :=
      if (alookup node_b.connections node_a_id).isSome then
        modifyNode net1 node_b_id (dropConnection node_a_id)
      else net1
    do
      let c ← isNetworkFullyConnected net2
      if c then .ok (net2, ridx)
      else ensureFullyConnected rng net2 ridx
  | _, _ => .error .attrError

/-! ## Shared lemmas about the embedding's primitives -/

theorem ok_bind {ε α β : Type} (a : α) (f : α → Except ε β) :
    (Except.ok a >>= f : Except ε β) = f a := rfl

theorem error_bind {ε α β : Type} (e : ε) (f : α → Except ε β) :
    (Except.error e >>= f : Except ε β) = .error e := rfl

theorem getNodeById_id {net : Network} {i : Nat} {n : Node}
    (h : getNodeById net i = some n) : n.node_id = i := by
  have := List.find?_some h
  simpa using this

theorem getNodeById_modifyNode (net : Network) (i j : Nat) (f : Node → Node)
    (hf : ∀ m : Node, m.node_id = i → (f m).node_id = m.node_id) :
    getNodeById (modifyNode net i f) j =
      (getNodeById net j).map (fun m => if m.node_id = i then f m else m) := by
  show List.find? _ (net.nodes.map _) = _
  unfold getNodeById
  induction net.nodes with
  | nil => simp
  | cons a rest ih =>
    have hpred : (decide ((if a.node_id = i then f a else a).node_id = j)) =
        (decide (a.node_id = j)) := by
      by_cases hai : a.node_id = i
      · simp [hai, hf a hai]
      · simp [hai]
    simp only [List.map_cons, List.find?_cons, hpred]
    cases hd : decide (a.node_id = j)
    · simp only [hd]
      simpa using ih
    · simp only [hd]
      simp

theorem getNodeById_modifyNode_self {net : Network} {i : Nat} {n : Node}
    (f : Node → Node) (hn : getNodeById net i = some n)
    (hf : ∀ m : Node, m.node_id = i → (f m).node_id = m.node_id) :
    getNodeById (modifyNode net i f) i = some (f n) := by
  rw [getNodeById_modifyNode net i i f hf, hn]
  simp [getNodeById_id hn]

theorem getNodeById_modifyNode_other {net : Network} {i j : Nat}
    (f : Node → Node) (hij : j ≠ i)
    (hf : ∀ m : Node, m.node_id = i → (f m).node_id = m.node_id) :
    getNodeById (modifyNode net i f) j = getNodeById net j := by
  rw [getNodeById_modifyNode net i j f hf]
  cases hj : getNodeById net j with
  | none => rfl
  | some m =>
    have := getNodeById_id hj
    simp [this, hij]

theorem modifyNode_queue (net : Network) (i : Nat) (f : Node → Node) :
    (modifyNode net i f).queue = net.queue := rfl

theorem modifyNode_sentRREPs (net : Network) (i : Nat) (f : Node → Node) :
    (modifyNode net i f).sentRREPs = net.sentRREPs := rfl

theorem updateRT_fst_node_id (net : Network) (self : Node) (d : Nat)
    (r : RoutingTableEntry) : ((updateRT net self d r).1).node_id = self.node_id := by
  unfold updateRT
  repeat' split
  all_goals simp

theorem updateRT_fst_seq (net : Network) (self : Node) (d : Nat)
    (r : RoutingTableEntry) : ((updateRT net self d r).1).seq = self.seq := by
  unfold updateRT
  repeat' split
  all_goals simp

/-! ## Concrete networks used by the claim theorems -/

/-- Zeroed message counters (a fresh node's `msg_stats`). -/
def baseStats : MsgStats := ⟨0, 0, 0, 0, 0, 0, 0, 0⟩

/-- A fresh node at the origin with the given connections and routing table. -/
def mkNode (i : Nat) (conns : List (Nat × ℚ)) (rt : List (Nat × RoutingTableEntry)) :
    Node :=
  { node_id := i, x := 0, y := 0, range_sq := 1, connections := conns,
    update_needed := false, seq := 0, routing_table := rt, broadcast_id := 0,
    msg_stats := baseStats, seen_rerrs := [], seen_rreqs := [], received_msgs := [],
    route_discovery_msg_count := 0 }

/-- A network with the given nodes, an empty queue and an empty RREP log. -/
def mkNet (ns : List Node) : Network := { nodes := ns, queue := [], sentRREPs := [] }

theorem alookup_ainsert_self {α : Type} (l : List (Nat × α)) (k : Nat) (v : α) :
    alookup (ainsert l k v) k = some v := by
  induction l with
  | nil => simp [ainsert, alookup]
  | cons p rest ih =>
    obtain ⟨k', v'⟩ := p
    by_cases hk : k' = k
    · simp [ainsert, alookup, hk]
    · simp [ainsert, alookup, hk, ih]

/-! ## C3: AODV freshness rule of `update_RT` -/

/-- C3.  `update_RT` installs the candidate and returns True exactly when
(1) no current entry exists, or (2) the current entry's next-hop link no
longer exists, or (3) the candidate's seq is strictly greater, or (4) the
seqs tie and the candidate's cost is strictly smaller; in every other case
(in particular any strictly older seq once rules 1 and 2 fail) the routing
table is left unchanged and False is returned. -/
theorem updateRT_aodv_freshness (net : Network) (self : Node) (dest_id : Nat)
    (cand : RoutingTableEntry) :
    ((updateRT net self dest_id cand).2 = true ↔
      (alookup self.routing_table dest_id = none ∨
        ∃ cur, alookup self.routing_table dest_id = some cur ∧
          (linkExists net self.node_id cur.next_hop = false ∨
            cur.seq < cand.seq ∨
            (cand.seq = cur.seq ∧ cand.cost < cur.cost)))) ∧
    ((updateRT net self dest_id cand).2 = true →
      (updateRT net self dest_id cand).1 =
        { self with routing_table := ainsert self.routing_table dest_id cand }) ∧
    ((updateRT net self dest_id cand).2 = false →
      (updateRT net self dest_id cand).1 = self) ∧
    (∀ cur, alookup self.routing_table dest_id = some cur →
      linkExists net self.node_id cur.next_hop = true →
      cand.seq < cur.seq →
      updateRT net self dest_id cand = (self, false)) := by
  unfold updateRT
  cases hcur : alookup self.routing_table dest_id with
  | none =>
    refine ⟨by simp, by simp, by simp, ?_⟩
    intro cur hcur'
    cases hcur'
  | some cur =>
    by_cases hlink : linkExists net self.node_id cur.next_hop
    · by_cases hseq : cand.seq > cur.seq
      · refine ⟨?_, by simp [hlink, hseq], by simp [hlink, hseq], ?_⟩
        · simp only [hlink, hseq]
          simp [hseq]
        · intro cur' hcur' _ hlt
          cases hcur'
          omega
      · by_cases htie : cand.seq = cur.seq ∧ cand.cost < cur.cost
        · refine ⟨?_, by simp [hlink, hseq, htie], by simp [hlink, hseq, htie], ?_⟩
          · simp only [hlink, hseq, htie]
            simp [htie]
          · intro cur' hcur' _ hlt
            cases hcur'
            omega
        · refine ⟨?_, by simp [hlink, hseq, htie], by simp [hlink, hseq, htie], ?_⟩
          · simp only [hlink, hseq, htie]
            constructor
            · intro hc
              simp [hlink, hseq, htie] at hc
            · rintro (hc | ⟨cur', hcur', hc⟩)
              · cases hc
              · cases hcur'
                rcases hc with hc | hc | hc
                · simp [hc] at hlink
                · omega
                · exact absurd hc htie
          · intro cur' hcur' _ hlt
            cases hcur'
            simp [hlink, hseq, htie]
    · have hlink' : linkExists net self.node_id cur.next_hop = false := by
        simpa using hlink
      refine ⟨?_, ?_, ?_, ?_⟩
      · constructor
        · intro _
          exact Or.inr ⟨cur, rfl, Or.inl hlink'⟩
        · intro _
          simp [hlink']
      · intro _
        simp [hlink']
      · simp [hlink']
      · intro cur' hcur' hl hlt
        cases hcur'
        exact absurd hl hlink

/-! ## C6: duplicate RREQs are dropped silently -/

/-- C6.  When the RREQ's `(originator, broadcast_id)` pair is already in the
node's `seen_rreqs`, `receive_RREQ` returns with the entire network (every
node's counters, tables and seen-sets, and the dispatch queue) unchanged. -/
theorem receiveRREQ_duplicate_dropped (fuel : Nat) (net : Network)
    (self_id : Nat) (rreq : RREQ) (forwarder_id : Nat) (n : Node)
    (hn : getNodeById net self_id = some n)
    (hdup : isDuplicate n rreq = true) :
    receiveRREQ (fuel + 1) net self_id rreq forwarder_id = .ok net := by
  rw [receiveRREQ]
  simp [getN, hn, ok_bind, hdup]

def c6wnode : Node :=
  { mkNode 1 [(0, 1)] [] with seen_rreqs := [(7, 3)] }

def c6wnet : Network := mkNet [mkNode 0 [(1, 1)] [], c6wnode]

def c6wrreq : RREQ :=
  { broadcast_id := 3, dest_id := 1, dest_seq := 0, source_id := 7, src_seq := 4,
    hops := 0, ttl := 300, cost := 0 }

theorem receiveRREQ_duplicate_dropped_witness :
    receiveRREQ 4 c6wnet 1 c6wrreq 0 = .ok c6wnet :=
  receiveRREQ_duplicate_dropped 3 c6wnet 1 c6wrreq 0 c6wnode (by rfl) (by rfl)

/-! ## C9: `discover_neighbors` only enqueues, installing no route -/

def c9net : Network := mkNet [mkNode 0 [(1, 1)] [], mkNode 1 [(0, 1)] []]

/-- C9.  On a two-node network with empty routing tables,
`discover_neighbors(node 0)` leaves node 0's routing table empty (no
direct-neighbor route is installed and no RREP is ever emitted): the one-hop
RREQ is only appended to the dispatch queue, which nothing drains within the
call. -/
theorem discoverNeighbors_no_routes_installed :
    ((getNodeById (discoverNeighbors c9net 0) 0).map (fun n => n.routing_table))
        = some [] ∧
    (discoverNeighbors c9net 0).queue.length = 1 ∧
    ((getNodeById (discoverNeighbors c9net 0) 1).map
        (fun n => (n.routing_table, n.msg_stats.rrep_sent, n.msg_stats.rreq_recv)))
        = some ([], 0, 0) ∧
    ((getNodeById c9net 0).map getNeighbors) = some [1] := by
  with_unfolding_all decide

/-! ## C2: a failed in-line route discovery raises KeyError -/

def c2net : Network := mkNet
  [ mkNode 0 [(1, 1)] [(2, ⟨2, 1, 0, 1, 0⟩)],
    mkNode 1 [(0, 1)] [],
    mkNode 2 [] [] ]

/-- C2.  `simulate_message_transmission(0, 2)` on `c2net` (node 0 holds a
stale route to the unreachable node 2 via node 1) reaches the forwarding
chain at node 1, whose in-line `route_discovery` installs no route to 2, and
the unguarded `self.routing_table[dst_id]` at aodv_node.py line 231 raises
KeyError instead of returning `(None, None, None)`. -/
theorem receive_forward_keyerror_after_discovery :
    simulateMessageTransmission 30 c2net 0 2 "m" = .error .keyError := by
  with_unfolding_all decide

/-! ## C10: `broadcast_RREQ` to self is a no-op; the drain is not -/

def c10rreq : RREQ :=
  { broadcast_id := 1, dest_id := 1, dest_seq := 0, source_id := 0, src_seq := 1,
    hops := 0, ttl := 300, cost := 0 }

def c10net : Network :=
  { mkNet [mkNode 0 [(1, 1)] [], mkNode 1 [(0, 1)] []] with
    queue := [⟨some 1, c10rreq, 0⟩] }

/-- C10 counterexample.  With one stale item on the dispatch queue,
`route_discovery(0, 0)` returns with the queue drained (length 1 → 0) and
node 1's `rreq_recv` bumped from 0 to 1: neither the queue nor every node's
state is unchanged. -/
theorem routeDiscovery_self_drains_stale_queue :
    ((routeDiscovery 10 c10net 0 0).toOption.map (fun n => n.queue)) = some [] ∧
    c10net.queue.length = 1 ∧
    ((routeDiscovery 10 c10net 0 0).toOption.bind
        (fun n => (getNodeById n 1).map (fun m => m.msg_stats.rreq_recv))) = some 1 ∧
    ((getNodeById c10net 1).map (fun m => m.msg_stats.rreq_recv)) = some 0 := by
  with_unfolding_all decide

/-- C10 (amended).  `broadcast_RREQ` with the node's own id returns at once
with the network unchanged; consequently, when the dispatch queue is empty at
call time, `route_discovery(x, x)` returns with the network (every node's
state and the queue) unchanged. -/
theorem broadcastRREQ_self_frame (f : Nat) (net : Network) (x : Nat) (n : Node)
    (hn : getNodeById net x = some n) (hq : net.queue = []) :
    broadcastRREQ net n x = net ∧ routeDiscovery (f + 2) net x x = .ok net := by
  have hid : n.node_id = x := getNodeById_id hn
  have hb : broadcastRREQ net n x = net := by
    rw [broadcastRREQ]
    simp [hid]
  refine ⟨hb, ?_⟩
  rw [routeDiscovery]
  simp only [getN, hn, ok_bind, hb]
  rw [drainQueue]
  simp [hq]

def c10wnet : Network := mkNet [mkNode 0 [] []]

theorem broadcastRREQ_self_frame_witness :
    broadcastRREQ c10wnet (mkNode 0 [] []) 0 = c10wnet ∧
    routeDiscovery 5 c10wnet 0 0 = .ok c10wnet :=
  broadcastRREQ_self_frame 3 c10wnet 0 (mkNode 0 [] []) (by rfl) (by rfl)

/-! ## C8: `add_link` has no already-present / self-loop guard -/

def c8net : Network := mkNet [mkNode 0 [(1, 1)] [], mkNode 1 [(0, 1)] []]

/-- C8 counterexample.  `add_link(0, 0, 7)` creates a self-loop entry on
node 0, and `add_link(0, 1, 5)` overwrites the existing link's delay 1 with
5: the claimed silent no-op guard does not exist in the code. -/
theorem addLink_self_loop_and_overwrite :
    ((addLink c8net 0 0 7).toOption.bind (fun m => getNodeById m 0)).map
        (fun n => alookup n.connections 0) = some (some 7) ∧
    ((addLink c8net 0 1 5).toOption.bind (fun m => getNodeById m 0)).map
        (fun n => alookup n.connections 1) = some (some 5) ∧
    ((getNodeById c8net 0).map (fun n => alookup n.connections 1)) = some (some 1) := by
  with_unfolding_all decide

/-- C8 (amended).  For any two existing nodes (equal or not), `add_link`
unconditionally installs the delay in both connection maps — overwriting any
present delay, and producing a self-loop entry when `a = b`. -/
theorem addLink_unconditional_symmetric (net : Network) (a b : Nat) (d : ℚ)
    (na nb : Node) (ha : getNodeById net a = some na)
    (hb : getNodeById net b = some nb) :
    ∃ net', addLink net a b d = .ok net' ∧
      ((getNodeById net' a).map (fun n => alookup n.connections b)) = some (some d) ∧
      ((getNodeById net' b).map (fun n => alookup n.connections a)) = some (some d) := by
  refine ⟨modifyNode (modifyNode net a (setConnection b d)) b (setConnection a d), ?_, ?_, ?_⟩
  · simp only [addLink, ha, hb]
  · by_cases hab : a = b
    · subst hab
      rw [getNodeById_modifyNode _ a a (setConnection a d) (fun m _ => rfl),
        getNodeById_modifyNode _ a a (setConnection a d) (fun m _ => rfl), ha]
      simp [getNodeById_id ha, alookup_ainsert_self, setConnection]
    · rw [getNodeById_modifyNode _ b a (setConnection a d) (fun m _ => rfl),
        getNodeById_modifyNode _ a a (setConnection b d) (fun m _ => rfl), ha]
      simp [getNodeById_id ha, hab, alookup_ainsert_self, setConnection]
  · by_cases hab : a = b
    · subst hab
      rw [getNodeById_modifyNode _ a a (setConnection a d) (fun m _ => rfl),
        getNodeById_modifyNode _ a a (setConnection a d) (fun m _ => rfl), ha]
      simp [getNodeById_id ha, alookup_ainsert_self, setConnection]
    · rw [getNodeById_modifyNode _ b b (setConnection a d) (fun m _ => rfl),
        getNodeById_modifyNode _ a b (setConnection b d) (fun m _ => rfl), hb]
      simp [getNodeById_id hb, (show ¬ b = a from fun h => hab h.symm),
        alookup_ainsert_self, setConnection]

theorem getNodeById_double_modify {net : Network} {i : Nat} {n0 : Node}
    (F : Node → Node) (u : Node) (hn : getNodeById net i = some n0)
    (hF : ∀ m : Node, m.node_id = i → (F m).node_id = m.node_id)
    (hu : u.node_id = i) :
    (∀ j, j ≠ i →
      getNodeById (modifyNode (modifyNode net i F) i (fun _ => u)) j = getNodeById net j) ∧
    getNodeById (modifyNode (modifyNode net i F) i (fun _ => u)) i = some u := by
  constructor
  · intro j hj
    rw [getNodeById_modifyNode_other _ hj (fun m hm => hu.trans hm.symm),
      getNodeById_modifyNode_other _ hj hF]
  · have h1 := getNodeById_modifyNode_self F hn hF
    exact getNodeById_modifyNode_self _ h1 (fun m hm => hu.trans hm.symm)

theorem seq_frame_modifyNode (net : Network) (i : Nat) (f : Node → Node)
    (hf : ∀ m : Node, m.node_id = i → ((f m).node_id = m.node_id ∧ (f m).seq = m.seq)) :
    ∀ j, (getNodeById (modifyNode net i f) j).map (fun m => m.seq) =
      (getNodeById net j).map (fun m => m.seq) := by
  intro j
  rw [getNodeById_modifyNode net i j f (fun m hm => (hf m hm).1)]
  cases hj : getNodeById net j with
  | none => rfl
  | some m =>
    by_cases hm : m.node_id = i
    · simp [hm, (hf m hm).2]
    · simp [hm]

/-- The synchronous RREP forwarding chain appends nothing to the RREP log and
changes no node's own sequence number. -/
theorem receiveRREP_frame (fuel : Nat) :
    ∀ (net : Network) (i : Nat) (rrep : RREP) (fwd : Nat) (net' : Network),
      receiveRREP fuel net i rrep fwd = .ok net' →
      net'.sentRREPs = net.sentRREPs ∧
      ∀ j, (getNodeById net' j).map (fun m => m.seq) =
        (getNodeById net j).map (fun m => m.seq) := by
  induction fuel with
  | zero =>
    intro net i rrep fwd net' h
    rw [receiveRREP] at h
    cases h
  | succ fuel ih =>
    intro net i rrep fwd net' h
    rw [receiveRREP] at h
    simp only [getN] at h
    cases hn : getNodeById net i with
    | none => rw [hn] at h; simp [error_bind] at h
    | some n0 =>
      simp only [hn, ok_bind] at h
      have hFid : ∀ m : Node, m.node_id = i → (bumpRrepRecv m).node_id = m.node_id :=
        fun m _ => rfl
      have hA : getNodeById (modifyNode net i bumpRrepRecv) i = some (bumpRrepRecv n0) :=
        getNodeById_modifyNode_self bumpRrepRecv hn hFid
      simp only [hA, ok_bind] at h
      set u := (updateRT (modifyNode net i bumpRrepRecv) (bumpRrepRecv n0) rrep.source_id
        { dest_id := rrep.source_id, next_hop := fwd, seq := rrep.dest_seq,
          hops := rrep.hops + 1,
          cost := rrep.cost + getLinkCost (modifyNode net i bumpRrepRecv) i fwd }).1 with hu
      have huid : u.node_id = i := by
        rw [hu, updateRT_fst_node_id]
        show n0.node_id = i
        exact getNodeById_id hn
      have hdm := getNodeById_double_modify bumpRrepRecv u hn hFid huid
      set net2 := modifyNode (modifyNode net i bumpRrepRecv) i (fun _ => u) with hnet2
      have hseq2 : ∀ j, (getNodeById net2 j).map (fun m => m.seq) =
          (getNodeById net j).map (fun m => m.seq) := by
        intro j
        by_cases hj : j = i
        · subst hj
          rw [hdm.2, hn]
          show some u.seq = some n0.seq
          rw [hu, updateRT_fst_seq]
          rfl
        · rw [hdm.1 j hj]
      have hlog2 : net2.sentRREPs = net.sentRREPs := rfl
      have hfin : ∀ hnet : net' = net2,
          net'.sentRREPs = net.sentRREPs ∧
          ∀ j, (getNodeById net' j).map (fun m => m.seq) =
            (getNodeById net j).map (fun m => m.seq) := by
        intro hnet
        subst hnet
        exact ⟨hlog2, hseq2⟩
      by_cases hdest : rrep.dest_id = i
      · rw [if_pos hdest] at h
        injection h with h2
        exact hfin h2.symm
      · rw [if_neg hdest] at h
        cases halo : alookup u.routing_table rrep.dest_id with
        | none =>
          simp only [halo] at h
          injection h with h2
          exact hfin h2.symm
        | some e =>
          simp only [halo] at h
          cases hnn : getNodeById net2 e.next_hop with
          | none =>
            simp only [hnn, error_bind] at h
            cases h
          | some nn =>
            simp only [hnn, ok_bind] at h
            cases hrec : receiveRREP fuel net2 nn.node_id
                { dest_id := rrep.dest_id, dest_seq := rrep.dest_seq,
                  source_id := rrep.source_id, hops := rrep.hops + 1,
                  cost := rrep.cost + getLinkCost (modifyNode net i bumpRrepRecv) i fwd,
                  ttl := rrep.ttl } i with
            | error e2 =>
              simp only [hrec, error_bind] at h
              cases h
            | ok net3 =>
              simp only [hrec, ok_bind] at h
              injection h with h2
              obtain ⟨hlog3, hseq3⟩ := ih net2 nn.node_id _ i net3 hrec
              subst h2
              constructor
              · exact hlog3.trans hlog2
              · intro j
                have hc : ∀ m : Node, m.node_id = i →
                    ((bumpRouteDiscoveryCount m).node_id = m.node_id ∧
                     (bumpRouteDiscoveryCount m).seq = m.seq) :=
                  fun m _ => ⟨rfl, rfl⟩
                rw [seq_frame_modifyNode net3 i _ hc j, hseq3 j, hseq2 j]

theorem getNodeById_logRREP (net : Network) (r : RREP) (j : Nat) :
    getNodeById (logRREP net r) j = getNodeById net j := rfl

/-- C5 (amended).  When a non-duplicate RREQ addressed to this node arrives,
the node's `seq` becomes `max(seq, rreq.dest_seq)` — with no increment — and
the RREP it emits carries exactly that value (hops 0, cost 0). -/
theorem receiveRREQ_dest_seq_is_max (fuel : Nat) (net : Network) (self_id : Nat)
    (rreq : RREQ) (fwd : Nat) (n : Node) (net' : Network)
    (hn : getNodeById net self_id = some n)
    (hdup : isDuplicate n rreq = false)
    (hdest : rreq.dest_id = self_id)
    (h : receiveRREQ fuel net self_id rreq fwd = .ok net') :
    (getNodeById net' self_id).map (fun m => m.seq) = some (max n.seq rreq.dest_seq) ∧
    net'.sentRREPs = net.sentRREPs ++
      [⟨rreq.source_id, max n.seq rreq.dest_seq, self_id, 0, 0, 300⟩] := by
  cases fuel with
  | zero => rw [receiveRREQ] at h; cases h
  | succ fuel =>
    rw [receiveRREQ] at h
    simp only [getN, hn, ok_bind, hdup, Bool.false_eq_true, if_false] at h
    have hFid : ∀ m : Node, m.node_id = self_id →
        (noteRreqSeen (rreq.source_id, rreq.broadcast_id) m).node_id = m.node_id :=
      fun m _ => rfl
    have hA : getNodeById (modifyNode net self_id
        (noteRreqSeen (rreq.source_id, rreq.broadcast_id))) self_id =
        some (noteRreqSeen (rreq.source_id, rreq.broadcast_id) n) :=
      getNodeById_modifyNode_self _ hn hFid
    simp only [hA, ok_bind] at h
    rw [if_pos hdest] at h
    set u := (updateRT
      (modifyNode net self_id (noteRreqSeen (rreq.source_id, rreq.broadcast_id)))
      (noteRreqSeen (rreq.source_id, rreq.broadcast_id) n) rreq.source_id
      { dest_id := rreq.source_id, next_hop := fwd, seq := rreq.src_seq,
        hops := rreq.hops + 1,
        cost := rreq.cost + getLinkCost
          (modifyNode net self_id (noteRreqSeen (rreq.source_id, rreq.broadcast_id)))
          self_id fwd }).1 with hu
    have huid : u.node_id = self_id := by
      rw [hu, updateRT_fst_node_id]
      show n.node_id = self_id
      exact getNodeById_id hn
    have hus : u.seq = n.seq := by
      rw [hu, updateRT_fst_seq]
      rfl
    have hdm := getNodeById_double_modify
      (noteRreqSeen (rreq.source_id, rreq.broadcast_id)) u hn hFid huid
    rw [hus] at h
    set net3 := modifyNode (modifyNode (modifyNode net self_id
      (noteRreqSeen (rreq.source_id, rreq.broadcast_id))) self_id (fun _ => u))
      self_id (setSeqMax rreq.dest_seq) with hnet3
    have hB : getNodeById net3 self_id = some (setSeqMax rreq.dest_seq u) := by
      rw [hnet3]
      exact getNodeById_modifyNode_self _ hdm.2 (fun m _ => rfl)
    cases fuel with
    | zero => rw [sendRREP] at h; cases h
    | succ fuel2 =>
      rw [sendRREP] at h
      have hC : getNodeById (modifyNode net3 self_id bumpRrepSent) self_id =
          some (bumpRrepSent (setSeqMax rreq.dest_seq u)) :=
        getNodeById_modifyNode_self _ hB (fun m _ => rfl)
      simp only [getN, getNodeById_logRREP, hC, ok_bind] at h
      cases halo : alookup (bumpRrepSent (setSeqMax rreq.dest_seq u)).routing_table
          rreq.source_id with
      | none =>
        simp only [halo] at h
        injection h with h2
        subst h2
        constructor
        · rw [getNodeById_logRREP, hC]
          show some (max u.seq rreq.dest_seq) = some (max n.seq rreq.dest_seq)
          rw [hus]
        · rfl
      | some e =>
        simp only [halo] at h
        cases hnn : getNodeById (modifyNode net3 self_id bumpRrepSent) e.next_hop with
        | none =>
          simp only [hnn, error_bind] at h
          cases h
        | some nn =>
          simp only [hnn, ok_bind] at h
          cases hrec : receiveRREP fuel2
              (logRREP (modifyNode net3 self_id bumpRrepSent)
                { dest_id := rreq.source_id, dest_seq := max n.seq rreq.dest_seq,
                  source_id := self_id, hops := 0, cost := 0, ttl := 300 })
              nn.node_id
              { dest_id := rreq.source_id, dest_seq := max n.seq rreq.dest_seq,
                source_id := self_id, hops := 0, cost := 0, ttl := 300 }
              self_id with
          | error e2 =>
            rw [hrec] at h
            cases h
          | ok net6 =>
            rw [hrec] at h
            injection h with h2
            subst h2
            obtain ⟨hlog6, hseq6⟩ := receiveRREP_frame fuel2 _ _ _ _ _ hrec
            constructor
            · rw [hseq6 self_id, getNodeById_logRREP, hC]
              show some (max u.seq rreq.dest_seq) = some (max n.seq rreq.dest_seq)
              rw [hus]
            · rw [hlog6]
              rfl

def c5net : Network := mkNet [mkNode 0 [(1, 1)] [], mkNode 1 [(0, 1)] []]

def c5rreq : RREQ :=
  { broadcast_id := 1, dest_id := 1, dest_seq := 5, source_id := 0, src_seq := 1,
    hops := 0, ttl := 300, cost := 0 }

/-- C5 counterexample.  Node 1 (own `seq = 0`) receives a fresh RREQ addressed
to it whose `dest_seq` is 5: afterwards its `seq` is 5 (not 6) and the emitted
RREP carries `dest_seq = 5`, which does not strictly exceed the requester's
known value 5 — no increment is ever applied. -/
theorem rrep_dest_seq_not_incremented :
    ((receiveRREQ 10 c5net 1 c5rreq 0).toOption.map
        (fun m => m.sentRREPs.map (fun r => r.dest_seq))) = some [5] ∧
    ((receiveRREQ 10 c5net 1 c5rreq 0).toOption.bind
        (fun m => (getNodeById m 1).map (fun x => x.seq))) = some 5 ∧
    ¬ (5 : Nat) > 5 := by
  with_unfolding_all decide

def c5resNet : Network := ((receiveRREQ 10 c5net 1 c5rreq 0).toOption).getD (mkNet [])

theorem receiveRREQ_dest_seq_is_max_witness :
    (getNodeById c5resNet 1).map (fun m => m.seq) = some (max 0 5) ∧
    c5resNet.sentRREPs = [⟨0, max 0 5, 1, 0, 0, 300⟩] := by
  have hok : receiveRREQ 10 c5net 1 c5rreq 0 = .ok c5resNet := by
    with_unfolding_all decide
  have hmain := receiveRREQ_dest_seq_is_max 10 c5net 1 c5rreq 0
    (mkNode 1 [(0, 1)] []) c5resNet (by rfl) (by rfl) (by rfl) hok
  refine ⟨hmain.1, ?_⟩
  have h2 := hmain.2
  simpa [c5net, mkNet] using h2

def c1net : Network := mkNet
  [mkNode 0 [(1, 1)] [(2, ⟨2, 1, 1, 1, 0⟩)],
   mkNode 1 [(0, 1)] [(2, ⟨2, 0, 1, 1, 0⟩)],
   mkNode 2 [] []]

/-- C1 counterexample.  In `c1net` node 0's route to 2 points at node 1 and
node 1's route to 2 points back at node 0.  `can_send` at node 0 succeeds, so
the packet is sent; node 1 detects the routing loop and drops the data packet
— node 2 receives nothing (`data_recv = 0`) — yet
`simulate_message_transmission` returns the non-`None` triple
`([0, 1], 0, 0.0)`, not `(None, None, None)`. -/
theorem simulate_failed_delivery_nonnone :
    ((simulateMessageTransmission 30 c1net 0 2 "m").toOption.map (fun p => p.2))
        = some (some [0, 1], some 0, some (0 : Cost)) ∧
    ((some [0, 1], some 0, some (0 : Cost)) : SimRet) ≠ (none, none, none) ∧
    ((simulateMessageTransmission 30 c1net 0 2 "m").toOption.bind
        (fun p => (getNodeById p.1 2).map (fun n => n.msg_stats.data_recv)))
      = some 0 := by
  with_unfolding_all decide

/-- C1 (amended).  When `simulate_message_transmission` returns normally, its
triple is `(None, None, None)` exactly when `can_send` failed on the original
network and, after the single `route_discovery` retry, failed again; every
other path through the procedure returns a triple whose first component is
non-`None` (delivery itself is not guaranteed, cf. the loop-drop
counterexample). -/
theorem simulateMessageTransmission_none_iff (fuel : Nat) (net : Network)
    (src dst : Nat) (msg : String) (net' : Network) (r : SimRet)
    (h : simulateMessageTransmission fuel net src dst msg = .ok (net', r)) :
    r = (none, none, none) ↔
      ∃ netA netC netD, canSend fuel net src dst = .ok (netA, false) ∧
        routeDiscovery fuel netA src dst = .ok netC ∧
        canSend fuel netC src dst = .ok (netD, false) ∧ net' = netD := by
  rw [simulateMessageTransmission] at h
  cases hc1 : canSend fuel net src dst with
  | error e =>
    simp only [hc1, error_bind] at h
    exact Except.noConfusion h
  | ok p1 =>
    obtain ⟨netA, okA⟩ := p1
    simp only [hc1, ok_bind] at h
    cases okA with
    | true =>
      rw [if_pos rfl] at h
      cases hs : sendMSG fuel netA src dst msg with
      | error e => simp only [hs, error_bind] at h; exact Except.noConfusion h
      | ok p2 =>
        obtain ⟨netB, ret⟩ := p2
        simp only [hs, ok_bind, Except.ok.injEq, Prod.mk.injEq] at h
        obtain ⟨hb, hr⟩ := h
        constructor
        · intro hx
          rw [← hr] at hx
          simp at hx
        · rintro ⟨a, c, d, hA, hB, hC, hD⟩
          simp at hA
    | false =>
      simp only [Bool.false_eq_true, if_false] at h
      cases hrd : routeDiscovery fuel netA src dst with
      | error e => simp only [hrd, error_bind] at h; exact Except.noConfusion h
      | ok netC =>
        simp only [hrd, ok_bind] at h
        cases hc2 : canSend fuel netC src dst with
        | error e => simp only [hc2, error_bind] at h; exact Except.noConfusion h
        | ok p3 =>
          obtain ⟨netD, okD⟩ := p3
          simp only [hc2, ok_bind] at h
          cases okD with
          | true =>
            rw [if_pos rfl] at h
            cases hs : sendMSG fuel netD src dst msg with
            | error e =>
              simp only [hs, error_bind] at h
              exact Except.noConfusion h
            | ok p4 =>
              obtain ⟨netE, ret⟩ := p4
              simp only [hs, ok_bind, Except.ok.injEq, Prod.mk.injEq] at h
              obtain ⟨he, hr⟩ := h
              constructor
              · intro hx
                rw [← hr] at hx
                simp at hx
              · rintro ⟨a, c, d, hA, hB, hC, hD⟩
                simp at hA
                subst hA
                rw [hrd] at hB
                simp only [Except.ok.injEq] at hB
                subst hB
                rw [hc2] at hC
                simp at hC
          | false =>
            simp only [Bool.false_eq_true, if_false, Except.ok.injEq,
              Prod.mk.injEq] at h
            obtain ⟨hd, hr⟩ := h
            constructor
            · intro hx
              exact ⟨netA, netC, netD, rfl, hrd, hc2, hd.symm⟩
            · intro hx
              exact hr.symm

def c1wnet : Network := mkNet [mkNode 0 [] []]

def c1wres : Network × SimRet :=
  (simulateMessageTransmission 5 c1wnet 0 1 "m").toOption.getD
    (mkNet [], (none, none, none))

theorem simulateMessageTransmission_none_iff_witness :
    ∃ netA netC netD, canSend 5 c1wnet 0 1 = .ok (netA, false) ∧
      routeDiscovery 5 netA 0 1 = .ok netC ∧
      canSend 5 netC 0 1 = .ok (netD, false) ∧ c1wres.1 = netD :=
  (simulateMessageTransmission_none_iff 5 c1wnet 0 1 "m" c1wres.1 c1wres.2
    (by with_unfolding_all decide)).mp (by with_unfolding_all decide)

theorem drainQueue_empty (fuel : Nat) :
    ∀ net net', drainQueue fuel net = .ok net' → net'.queue = [] := by
  induction fuel with
  | zero =>
    intro net net' h
    rw [drainQueue] at h
    exact Except.noConfusion h
  | succ fuel ih =>
    intro net net' h
    rw [drainQueue] at h
    cases hq : net.queue with
    | nil =>
      simp only [hq] at h
      injection h with h1
      subst h1
      exact hq
    | cons item rest =>
      simp only [hq] at h
      cases hr : item.receiver with
      | none =>
        simp only [hr] at h
        exact Except.noConfusion h
      | some rid =>
        simp only [hr] at h
        cases hrc : receiveRREQ fuel { net with queue := rest } rid item.rreq
            item.forwarder with
        | error e =>
          simp only [hrc, error_bind] at h
          exact Except.noConfusion h
        | ok net1 =>
          simp only [hrc, ok_bind] at h
          exact ih net1 net' h

/-- C4 (amended).  Whenever `route_discovery` returns normally, the network
dispatch queue has indeed been drained to empty — the queue-fixpoint part of
the claim holds on every normal return; termination itself fails (see the
counterexample). -/
theorem routeDiscovery_returns_empty_queue (fuel : Nat) (net : Network)
    (src dst : Nat) (net' : Network)
    (h : routeDiscovery fuel net src dst = .ok net') : net'.queue = [] := by
  cases fuel with
  | zero =>
    rw [routeDiscovery] at h
    exact Except.noConfusion h
  | succ fuel =>
    rw [routeDiscovery] at h
    cases hg : getN net src with
    | error e =>
      simp only [hg, error_bind] at h
      exact Except.noConfusion h
    | ok src_node =>
      simp only [hg, ok_bind] at h
      exact drainQueue_empty fuel _ net' h

def c4wnet : Network := mkNet [mkNode 0 [] []]

def c4wres : Network := (routeDiscovery 5 c4wnet 0 1).toOption.getD (mkNet [])

theorem routeDiscovery_returns_empty_queue_witness : c4wres.queue = [] :=
  routeDiscovery_returns_empty_queue 5 c4wnet 0 1 c4wres
    (by with_unfolding_all decide)

/-! ## C4: the RREP forwarding chain can loop forever -/

def c4net : Network := mkNet
  [ mkNode 0 [(1, 1)] [(5, ⟨5, 1, 20, 1, 0⟩), (2, ⟨2, 1, 5, 1, 0⟩)],
    mkNode 1 [(0, 1), (2, 1)] [(5, ⟨5, 0, 10, 2, 0⟩), (2, ⟨2, 0, 100, 5, 0⟩)],
    mkNode 2 [(1, 1)] [] ]

def c4n2 : Node := mkNode 2 [(1, 1)] []

def c4netB : Network := broadcastRREQ c4net c4n2 5

def c4netQ : Network := { c4netB with queue := [] }

def c4rreq : RREQ :=
  { broadcast_id := 1, dest_id := 5, dest_seq := 0, source_id := 2, src_seq := 1,
    hops := 0, ttl := 300, cost := 0 }

def c4node1v : Node :=
  { node_id := 1, x := 0, y := 0, range_sq := 1,
    connections := [(0, 1), (2, 1)], update_needed := false, seq := 0,
    routing_table := [(5, ⟨5, 0, 10, 2, 0⟩), (2, ⟨2, 0, 100, 5, 0⟩)],
    broadcast_id := 0,
    msg_stats := { baseStats with rreq_recv := 1 },
    seen_rerrs := [], seen_rreqs := [(2, 1)], received_msgs := [],
    route_discovery_msg_count := 0 }

def c4node2v : Node :=
  { node_id := 2, x := 0, y := 0, range_sq := 1, connections := [(1, 1)],
    update_needed := false, seq := 1, routing_table := [], broadcast_id := 1,
    msg_stats := { baseStats with rreq_sent := 1 },
    seen_rerrs := [], seen_rreqs := [(2, 1)], received_msgs := [],
    route_discovery_msg_count := 0 }

def c4net2 : Network :=
  { nodes := [mkNode 0 [(1, 1)] [(5, ⟨5, 1, 20, 1, 0⟩), (2, ⟨2, 1, 5, 1, 0⟩)],
              c4node1v, c4node2v],
    queue := [], sentRREPs := [] }

example : c4netB.queue = [⟨some 1, c4rreq, 2⟩] := by with_unfolding_all decide

example (g : Nat) : receiveRREQ (g + 1) c4netQ 1 c4rreq 2 =
    sendRREP g c4net2 1 5 2 10 2 0 := by
  with_unfolding_all rfl

example (g : Nat) : drainQueue (g + 1) c4netB =
    receiveRREQ g c4netQ 1 c4rreq 2 >>= (fun n => drainQueue g n) := by
  with_unfolding_all rfl

theorem bumpRrepRecv_rt (n : Node) :
    (bumpRrepRecv n).routing_table = n.routing_table := rfl

theorem bumpRrepRecv_conn (n : Node) :
    (bumpRrepRecv n).connections = n.connections := rfl

theorem bumpRrepSent_rt (n : Node) :
    (bumpRrepSent n).routing_table = n.routing_table := rfl

theorem bumpRrepSent_conn (n : Node) :
    (bumpRrepSent n).connections = n.connections := rfl

/-- The two-node core of `c4net` that the diverging RREP chain preserves:
nodes 0 and 1 exist, are linked to each other, and hold the pinned routes to
ids 5 and 2 (each pointing at the other node). -/
def c4Inv (net : Network) : Prop :=
  match getNodeById net 0, getNodeById net 1 with
  | some n0, some n1 =>
      n0.node_id = 0 ∧ n1.node_id = 1 ∧
      alookup n0.connections 1 = some 1 ∧ alookup n1.connections 0 = some 1 ∧
      alookup n0.routing_table 5 = some ⟨5, 1, 20, 1, 0⟩ ∧
      alookup n1.routing_table 5 = some ⟨5, 0, 10, 2, 0⟩ ∧
      alookup n0.routing_table 2 = some ⟨2, 1, 5, 1, 0⟩ ∧
      alookup n1.routing_table 2 = some ⟨2, 0, 100, 5, 0⟩
  | _, _ => False

theorem c4Inv_elim {net : Network} (h : c4Inv net) :
    ∃ n0 n1, getNodeById net 0 = some n0 ∧ getNodeById net 1 = some n1 ∧
      n0.node_id = 0 ∧ n1.node_id = 1 ∧
      alookup n0.connections 1 = some 1 ∧ alookup n1.connections 0 = some 1 ∧
      alookup n0.routing_table 5 = some ⟨5, 1, 20, 1, 0⟩ ∧
      alookup n1.routing_table 5 = some ⟨5, 0, 10, 2, 0⟩ ∧
      alookup n0.routing_table 2 = some ⟨2, 1, 5, 1, 0⟩ ∧
      alookup n1.routing_table 2 = some ⟨2, 0, 100, 5, 0⟩ := by
  unfold c4Inv at h
  cases h0 : getNodeById net 0 with
  | none =>
    cases h1 : getNodeById net 1 with
    | none => rw [h0, h1] at h; exact h.elim
    | some n1 => rw [h0, h1] at h; exact h.elim
  | some n0 =>
    cases h1 : getNodeById net 1 with
    | none => rw [h0, h1] at h; exact h.elim
    | some n1 =>
      rw [h0, h1] at h
      exact ⟨n0, n1, rfl, rfl, h⟩

theorem c4Inv_intro (net : Network) (n0 n1 : Node)
    (h0 : getNodeById net 0 = some n0) (h1 : getNodeById net 1 = some n1)
    (hrest : n0.node_id = 0 ∧ n1.node_id = 1 ∧
      alookup n0.connections 1 = some 1 ∧ alookup n1.connections 0 = some 1 ∧
      alookup n0.routing_table 5 = some ⟨5, 1, 20, 1, 0⟩ ∧
      alookup n1.routing_table 5 = some ⟨5, 0, 10, 2, 0⟩ ∧
      alookup n0.routing_table 2 = some ⟨2, 1, 5, 1, 0⟩ ∧
      alookup n1.routing_table 2 = some ⟨2, 0, 100, 5, 0⟩) : c4Inv net := by
  unfold c4Inv
  rw [h0, h1]
  exact hrest

theorem updateRT_reject (net : Network) (self : Node) (d : Nat)
    (r cur : RoutingTableEntry)
    (hcur : alookup self.routing_table d = some cur)
    (hlink : linkExists net self.node_id cur.next_hop = true)
    (hseq : ¬ r.seq > cur.seq)
    (hcost : ¬ (r.seq = cur.seq ∧ r.cost < cur.cost)) :
    updateRT net self d r = (self, false) := by
  unfold updateRT
  simp only [hcur]
  rw [if_neg (by simp [hlink]), if_neg hseq, if_neg hcost]

theorem linkExists_true (net : Network) (a b : Nat) (na nb : Node) (da db : ℚ)
    (ha : getNodeById net a = some na) (hb : getNodeById net b = some nb)
    (hab : alookup na.connections b = some da)
    (hba : alookup nb.connections a = some db) :
    linkExists net a b = true := by
  unfold linkExists
  simp [ha, hb, hab, hba]

theorem getLinkCost_eq (net : Network) (a b : Nat) (na nb : Node) (d : ℚ)
    (ha : getNodeById net a = some na) (hb : getNodeById net b = some nb)
    (hab : alookup na.connections b = some d) :
    getLinkCost net a b = ((d : ℚ) : Cost) := by
  unfold getLinkCost
  simp only [ha, hb, hab]

theorem c4_chain (fuel : Nat) :
    ∀ net rrep, c4Inv net → rrep.dest_id = 2 → rrep.source_id = 5 →
      rrep.dest_seq = 10 → (0 : Cost) ≤ rrep.cost →
      receiveRREP fuel net 0 rrep 1 = .error .outOfFuel ∧
      receiveRREP fuel net 1 rrep 0 = .error .outOfFuel := by
  induction fuel with
  | zero =>
    intro net rrep _ _ _ _ _
    exact ⟨by rw [receiveRREP], by rw [receiveRREP]⟩
  | succ fuel ih =>
    intro net rrep hinv hd hs hq hc
    obtain ⟨n0, n1, h0, h1, hid0, hid1, hc01, hc10, h05, h15, h02, h12⟩ :=
      c4Inv_elim hinv
    have hone : (0 : Cost) ≤ ((1 : ℚ) : Cost) := by with_unfolding_all decide
    constructor
    · rw [receiveRREP]
      have hFid : ∀ m : Node, m.node_id = 0 → (bumpRrepRecv m).node_id = m.node_id :=
        fun m _ => rfl
      have hA : getNodeById (modifyNode net 0 bumpRrepRecv) 0 =
          some (bumpRrepRecv n0) :=
        getNodeById_modifyNode_self bumpRrepRecv h0 hFid
      have hB : getNodeById (modifyNode net 0 bumpRrepRecv) 1 = some n1 := by
        rw [getNodeById_modifyNode_other bumpRrepRecv (by decide) hFid]
        exact h1
      simp only [getN, h0, hA, ok_bind]
      have hlc : getLinkCost (modifyNode net 0 bumpRrepRecv) 0 1 = ((1 : ℚ) : Cost) :=
        getLinkCost_eq _ 0 1 (bumpRrepRecv n0) n1 1 hA hB
          (by rw [bumpRrepRecv_conn]; exact hc01)
      rw [hlc, hd, hs, hq]
      have hrej : updateRT (modifyNode net 0 bumpRrepRecv) (bumpRrepRecv n0) 5
          { dest_id := 5, next_hop := 1, seq := 10, hops := rrep.hops + 1,
            cost := rrep.cost + ((1 : ℚ) : Cost) } = (bumpRrepRecv n0, false) := by
        apply updateRT_reject _ _ _ _ (⟨5, 1, 20, 1, 0⟩ : RoutingTableEntry)
        · rw [bumpRrepRecv_rt]
          exact h05
        · have hnid : (bumpRrepRecv n0).node_id = 0 := hid0
          rw [hnid]
          exact linkExists_true _ 0 1 (bumpRrepRecv n0) n1 1 1 hA hB
            (by rw [bumpRrepRecv_conn]; exact hc01) hc10
        · show ¬ ((10 : Nat) > 20)
          decide
        · exact fun hcon => by
            have h10 : (10 : Nat) = 20 := hcon.1
            exact absurd h10 (by decide)
      rw [hrej]
      rw [if_neg (by decide)]
      simp only [bumpRrepRecv_rt, h02]
      have hdm := getNodeById_double_modify bumpRrepRecv (bumpRrepRecv n0) h0 hFid
        (show (bumpRrepRecv n0).node_id = 0 from hid0)
      have hN2 : getNodeById (modifyNode (modifyNode net 0 bumpRrepRecv) 0
          (fun _ => bumpRrepRecv n0)) 1 = some n1 := by
        rw [hdm.1 1 (by decide)]
        exact h1
      simp only [getN, hN2, ok_bind, hid1]
      have hinv2 : c4Inv (modifyNode (modifyNode net 0 bumpRrepRecv) 0
          (fun _ => bumpRrepRecv n0)) := by
        apply c4Inv_intro _ (bumpRrepRecv n0) n1 hdm.2 hN2
        refine ⟨hid0, hid1, ?_, hc10, ?_, h15, ?_, h12⟩
        · rw [bumpRrepRecv_conn]; exact hc01
        · rw [bumpRrepRecv_rt]; exact h05
        · rw [bumpRrepRecv_rt]; exact h02
      have hrec := (ih (modifyNode (modifyNode net 0 bumpRrepRecv) 0
          (fun _ => bumpRrepRecv n0))
        { dest_id := 2, dest_seq := 10, source_id := 5, hops := rrep.hops + 1,
          cost := rrep.cost + ((1 : ℚ) : Cost), ttl := rrep.ttl } hinv2 rfl rfl rfl
        (le_trans hc (le_add_of_nonneg_right hone))).2
      rw [hrec, error_bind]
    · rw [receiveRREP]
      have hFid : ∀ m : Node, m.node_id = 1 → (bumpRrepRecv m).node_id = m.node_id :=
        fun m _ => rfl
      have hA : getNodeById (modifyNode net 1 bumpRrepRecv) 1 =
          some (bumpRrepRecv n1) :=
        getNodeById_modifyNode_self bumpRrepRecv h1 hFid
      have hB : getNodeById (modifyNode net 1 bumpRrepRecv) 0 = some n0 := by
        rw [getNodeById_modifyNode_other bumpRrepRecv (by decide) hFid]
        exact h0
      simp only [getN, h1, hA, ok_bind]
      have hlc : getLinkCost (modifyNode net 1 bumpRrepRecv) 1 0 = ((1 : ℚ) : Cost) :=
        getLinkCost_eq _ 1 0 (bumpRrepRecv n1) n0 1 hA hB
          (by rw [bumpRrepRecv_conn]; exact hc10)
      rw [hlc, hd, hs, hq]
      have hrej : updateRT (modifyNode net 1 bumpRrepRecv) (bumpRrepRecv n1) 5
          { dest_id := 5, next_hop := 0, seq := 10, hops := rrep.hops + 1,
            cost := rrep.cost + ((1 : ℚ) : Cost) } = (bumpRrepRecv n1, false) := by
        apply updateRT_reject _ _ _ _ (⟨5, 0, 10, 2, 0⟩ : RoutingTableEntry)
        · rw [bumpRrepRecv_rt]
          exact h15
        · have hnid : (bumpRrepRecv n1).node_id = 1 := hid1
          rw [hnid]
          exact linkExists_true _ 1 0 (bumpRrepRecv n1) n0 1 1 hA hB
            (by rw [bumpRrepRecv_conn]; exact hc10) hc01
        · show ¬ ((10 : Nat) > 10)
          decide
        · exact fun hcon => absurd hcon.2
            (not_lt.mpr (le_trans hc (le_add_of_nonneg_right hone)))
      rw [hrej]
      rw [if_neg (by decide)]
      simp only [bumpRrepRecv_rt, h12]
      have hdm := getNodeById_double_modify bumpRrepRecv (bumpRrepRecv n1) h1 hFid
        (show (bumpRrepRecv n1).node_id = 1 from hid1)
      have hN2 : getNodeById (modifyNode (modifyNode net 1 bumpRrepRecv) 1
          (fun _ => bumpRrepRecv n1)) 0 = some n0 := by
        rw [hdm.1 0 (by decide)]
        exact h0
      simp only [getN, hN2, ok_bind, hid0]
      have hinv2 : c4Inv (modifyNode (modifyNode net 1 bumpRrepRecv) 1
          (fun _ => bumpRrepRecv n1)) := by
        apply c4Inv_intro _ n0 (bumpRrepRecv n1) hN2 hdm.2
        refine ⟨hid0, hid1, hc01, ?_, h05, ?_, h02, ?_⟩
        · rw [bumpRrepRecv_conn]; exact hc10
        · rw [bumpRrepRecv_rt]; exact h15
        · rw [bumpRrepRecv_rt]; exact h12
      have hrec := (ih (modifyNode (modifyNode net 1 bumpRrepRecv) 1
          (fun _ => bumpRrepRecv n1))
        { dest_id := 2, dest_seq := 10, source_id := 5, hops := rrep.hops + 1,
          cost := rrep.cost + ((1 : ℚ) : Cost), ttl := rrep.ttl } hinv2 rfl rfl rfl
        (le_trans hc (le_add_of_nonneg_right hone))).1
      rw [hrec, error_bind]

theorem c4_sendRREP (fuel : Nat) (net : Network) (hinv : c4Inv net) :
    sendRREP fuel net 1 5 2 10 2 0 = .error .outOfFuel := by
  cases fuel with
  | zero => rw [sendRREP]
  | succ fuel =>
    rw [sendRREP]
    obtain ⟨n0, n1, h0, h1, hid0, hid1, hc01, hc10, h05, h15, h02, h12⟩ :=
      c4Inv_elim hinv
    have hFid : ∀ m : Node, m.node_id = 1 → (bumpRrepSent m).node_id = m.node_id :=
      fun m _ => rfl
    have hA : getNodeById (modifyNode net 1 bumpRrepSent) 1 =
        some (bumpRrepSent n1) :=
      getNodeById_modifyNode_self bumpRrepSent h1 hFid
    have hB : getNodeById (modifyNode net 1 bumpRrepSent) 0 = some n0 := by
      rw [getNodeById_modifyNode_other bumpRrepSent (by decide) hFid]
      exact h0
    simp only [getN, getNodeById_logRREP, hA, ok_bind]
    simp only [bumpRrepSent_rt, h12]
    simp only [getN, getNodeById_logRREP, hB, ok_bind, hid0]
    have hinv2 : c4Inv (logRREP (modifyNode net 1 bumpRrepSent)
        { dest_id := 2, dest_seq := 10, source_id := 5, hops := 2, cost := 0,
          ttl := 300 }) := by
      apply c4Inv_intro _ n0 (bumpRrepSent n1)
      · rw [getNodeById_logRREP]
        exact hB
      · rw [getNodeById_logRREP]
        exact hA
      · refine ⟨hid0, hid1, hc01, ?_, h05, ?_, h02, ?_⟩
        · rw [bumpRrepSent_conn]; exact hc10
        · rw [bumpRrepSent_rt]; exact h15
        · rw [bumpRrepSent_rt]; exact h12
    exact (c4_chain fuel _ _ hinv2 rfl rfl rfl le_rfl).1

theorem c4_receiveRREQ (g : Nat) :
    receiveRREQ g c4netQ 1 c4rreq 2 = .error .outOfFuel := by
  cases g with
  | zero => rw [receiveRREQ]
  | succ g =>
    have hstep : receiveRREQ (g + 1) c4netQ 1 c4rreq 2 =
        sendRREP g c4net2 1 5 2 10 2 0 := by
      with_unfolding_all rfl
    rw [hstep]
    refine c4_sendRREP g c4net2 ?_
    apply c4Inv_intro c4net2
      (mkNode 0 [(1, 1)] [(5, ⟨5, 1, 20, 1, 0⟩), (2, ⟨2, 1, 5, 1, 0⟩)]) c4node1v
    · with_unfolding_all decide
    · with_unfolding_all decide
    · refine ⟨rfl, rfl, ?_, ?_, ?_, ?_, ?_, ?_⟩ <;> with_unfolding_all decide

theorem c4_drain (g : Nat) : drainQueue g c4netB = .error .outOfFuel := by
  cases g with
  | zero => rw [drainQueue]
  | succ g =>
    have hstep : drainQueue (g + 1) c4netB =
        receiveRREQ g c4netQ 1 c4rreq 2 >>= (fun n => drainQueue g n) := by
      with_unfolding_all rfl
    rw [hstep, c4_receiveRREQ g, error_bind]

/-- C4 counterexample.  On `c4net` — where nodes 0 and 1 hold mutually
pointing routes to the RREQ destination 5 and to the requester 2 —
`route_discovery(2, 5)` never returns: the RREP answered from node 1's table
bounces between nodes 0 and 1 forever (each hop's route install is rejected
as stale, so the tables that sustain the loop never change), exhausting any
fuel bound. -/
theorem routeDiscovery_c4_diverges :
    ¬ ∃ f r, routeDiscovery f c4net 2 5 = .ok r := by
  rintro ⟨f, r, h⟩
  cases f with
  | zero =>
    rw [routeDiscovery] at h
    exact Except.noConfusion h
  | succ f =>
    rw [routeDiscovery] at h
    have hg : getN c4net 2 = .ok c4n2 := by with_unfolding_all decide
    simp only [hg, ok_bind] at h
    have hb : broadcastRREQ c4net c4n2 5 = c4netB := rfl
    rw [hb, c4_drain f] at h
    exact Except.noConfusion h

def c8wnet : Network := mkNet [mkNode 0 [] []]

theorem addLink_unconditional_symmetric_witness :
    ∃ net', addLink c8wnet 0 0 9 = .ok net' ∧
      ((getNodeById net' 0).map (fun n => alookup n.connections 0))
          = some (some 9) ∧
      ((getNodeById net' 0).map (fun n => alookup n.connections 0))
          = some (some 9) :=
  addLink_unconditional_symmetric c8wnet 0 0 9 (mkNode 0 [] []) (mkNode 0 [] [])
    (by with_unfolding_all decide) (by with_unfolding_all decide)

/-! ## C7: `remove_link` restores connectivity -/

/-- Directed adjacency of the stored link graph: node at index `i` lists `j`
among its connection keys. -/
def adj (net : Network) (i j : Nat) : Prop :=
  ∃ nd, net.nodes[i]? = some nd ∧ j ∈ getNeighbors nd

/-- Reachability along stored links. -/
def Reach (net : Network) : Nat → Nat → Prop := Relation.ReflTransGen (adj net)

/-- Every stored connection key indexes an existing node. -/
abbrev keysBounded (net : Network) : Prop :=
  ∀ (k : Nat) (nd : Node), net.nodes[k]? = some nd →
    ∀ j ∈ getNeighbors nd, j < net.nodes.length

/-- Node ids equal list indices. -/
abbrev idsDense (net : Network) : Prop :=
  ∀ (k : Nat) (nd : Node), net.nodes[k]? = some nd → nd.node_id = k

/-- Well-formed simulator network: ids are the positions, connection keys are
in range and duplicate-free, and the link relation is symmetric (every
network the simulator builds satisfies this). -/
def wfNode (net : Network) (k : Nat) : Bool :=
  match net.nodes[k]? with
  | none => false
  | some nd =>
    decide (nd.node_id = k) &&
    decide ((getNeighbors nd).Nodup) &&
    nd.connections.all (fun p =>
      decide (p.1 < net.nodes.length) &&
      match net.nodes[p.1]? with
      | none => false
      | some other => decide (k ∈ getNeighbors other))

def wfNet (net : Network) : Bool :=
  (List.range net.nodes.length).all (wfNode net)

theorem alookup_isSome_iff {α : Type} (l : List (Nat × α)) (k : Nat) :
    (alookup l k).isSome = true ↔ k ∈ l.map Prod.fst := by
  induction l with
  | nil => simp [alookup]
  | cons p rest ih =>
    obtain ⟨a, v⟩ := p
    by_cases hk : a = k
    · subst hk
      simp [alookup]
    · simp [alookup, hk, ih, Ne.symm hk]

theorem aerase_sublist {α : Type} (l : List (Nat × α)) (k : Nat) :
    (aerase l k).Sublist l := by
  induction l with
  | nil => simp [aerase]
  | cons p rest ih =>
    obtain ⟨a, v⟩ := p
    by_cases hk : a = k
    · simp only [aerase, hk, if_pos rfl]
      exact List.sublist_cons_self _ _
    · simp only [aerase, hk, if_false]
      exact ih.cons₂ _

theorem mem_map_fst_aerase {α : Type} {l : List (Nat × α)} {k j : Nat}
    (hnd : (l.map Prod.fst).Nodup) :
    j ∈ (aerase l k).map Prod.fst ↔ j ∈ l.map Prod.fst ∧ j ≠ k := by
  induction l with
  | nil => simp [aerase]
  | cons p rest ih =>
    obtain ⟨a, v⟩ := p
    simp only [List.map_cons, List.nodup_cons] at hnd
    obtain ⟨hka, hrest⟩ := hnd
    by_cases hk : a = k
    · subst hk
      simp only [aerase, if_pos rfl, List.map_cons, List.mem_cons]
      constructor
      · intro hj
        refine ⟨Or.inr hj, ?_⟩
        rintro rfl
        exact hka hj
      · rintro ⟨hj | hj, hne⟩
        · exact absurd hj hne
        · exact hj
    · simp only [aerase, if_neg hk, List.map_cons, List.mem_cons]
      rw [ih hrest]
      constructor
      · rintro (rfl | ⟨hj, hne⟩)
        · exact ⟨Or.inl rfl, hk⟩
        · exact ⟨Or.inr hj, hne⟩
      · rintro ⟨rfl | hj, hne⟩
        · exact Or.inl rfl
        · exact Or.inr ⟨hj, hne⟩

theorem mem_map_fst_ainsert {α : Type} (l : List (Nat × α)) (k j : Nat) (v : α) :
    j ∈ (ainsert l k v).map Prod.fst ↔ j ∈ l.map Prod.fst ∨ j = k := by
  induction l with
  | nil => simp [ainsert]
  | cons p rest ih =>
    obtain ⟨a, v'⟩ := p
    by_cases hk : a = k
    · subst hk
      simp [ainsert]
      tauto
    · simp [ainsert, hk, ih]
      tauto

theorem nodup_map_fst_ainsert {α : Type} (l : List (Nat × α)) (k : Nat) (v : α)
    (h : (l.map Prod.fst).Nodup) : ((ainsert l k v).map Prod.fst).Nodup := by
  induction l with
  | nil => simp [ainsert]
  | cons p rest ih =>
    obtain ⟨a, v'⟩ := p
    simp only [List.map_cons, List.nodup_cons] at h
    by_cases hk : a = k
    · subst hk
      have he : ainsert ((a, v') :: rest) a v = (a, v) :: rest := by
        simp [ainsert]
      rw [he]
      simp only [List.map_cons, List.nodup_cons]
      exact h
    · simp only [ainsert, if_neg hk, List.map_cons, List.nodup_cons]
      refine ⟨?_, ih h.2⟩
      rw [mem_map_fst_ainsert]
      rintro (hm | rfl)
      · exact h.1 hm
      · exact hk rfl

theorem length_modifyNode (net : Network) (i : Nat) (f : Node → Node) :
    (modifyNode net i f).nodes.length = net.nodes.length := by
  simp [modifyNode]

theorem length_listModify {α : Type} (l : List α) (i : Nat) (f : α → α) :
    (listModify l i f).length = l.length := by
  induction l generalizing i with
  | nil => rfl
  | cons a rest ih =>
    cases i with
    | zero => rfl
    | succ i => simpa [listModify] using ih i

theorem getElem?_listModify {α : Type} (l : List α) (i k : Nat) (f : α → α) :
    (listModify l i f)[k]? = if k = i then (l[k]?).map f else l[k]? := by
  induction l generalizing i k with
  | nil =>
    simp [listModify]
  | cons a rest ih =>
    cases i with
    | zero =>
      cases k with
      | zero => simp [listModify]
      | succ k => simp [listModify]
    | succ i =>
      cases k with
      | zero => simp [listModify]
      | succ k => simpa [listModify] using ih i k

theorem getElem?_modifyNode_dense {net : Network} (hd : idsDense net) (i k : Nat)
    (f : Node → Node) :
    (modifyNode net i f).nodes[k]? =
      if k = i then (net.nodes[k]?).map f else net.nodes[k]? := by
  show (net.nodes.map _)[k]? = _
  rw [List.getElem?_map]
  cases hg : net.nodes[k]? with
  | none => simp
  | some nd =>
    have hid := hd k nd hg
    by_cases hk : k = i
    · subst hk
      simp [hid]
    · simp [hid, hk]

theorem getElem?_modifyIdx (net : Network) (i k : Nat) (f : Node → Node) :
    (modifyIdx net i f).nodes[k]? =
      if k = i then (net.nodes[k]?).map f else net.nodes[k]? := by
  show (listModify net.nodes i f)[k]? = _
  exact getElem?_listModify net.nodes i k f

theorem length_modifyIdx (net : Network) (i : Nat) (f : Node → Node) :
    (modifyIdx net i f).nodes.length = net.nodes.length := by
  show (listModify net.nodes i f).length = _
  exact length_listModify net.nodes i f

theorem wfNode_elim {net : Network} {k : Nat} (h : wfNode net k = true) :
    ∃ nd, net.nodes[k]? = some nd ∧ nd.node_id = k ∧ (getNeighbors nd).Nodup ∧
      ∀ j ∈ getNeighbors nd, j < net.nodes.length ∧ adj net j k := by
  unfold wfNode at h
  cases hg : net.nodes[k]? with
  | none => rw [hg] at h; cases h
  | some nd =>
    rw [hg] at h
    simp only [Bool.and_eq_true, decide_eq_true_eq, List.all_eq_true] at h
    obtain ⟨⟨hid, hnodup⟩, hconn⟩ := h
    refine ⟨nd, rfl, hid, hnodup, ?_⟩
    intro j hj
    obtain ⟨p, hp, hpj⟩ := List.mem_map.mp hj
    have h2 := hconn p hp
    simp only [Bool.and_eq_true, decide_eq_true_eq] at h2
    obtain ⟨hlt, hsym⟩ := h2
    subst hpj
    refine ⟨hlt, ?_⟩
    cases hg2 : net.nodes[p.1]? with
    | none => rw [hg2] at hsym; cases hsym
    | some other =>
      rw [hg2] at hsym
      simp only [decide_eq_true_eq] at hsym
      exact ⟨other, hg2, hsym⟩

theorem wfNet_node {net : Network} (h : wfNet net = true) {k : Nat}
    (hk : k < net.nodes.length) : wfNode net k = true := by
  unfold wfNet at h
  exact List.all_eq_true.mp h k (List.mem_range.mpr hk)

theorem wfNet_intro (net : Network)
    (h : ∀ k, k < net.nodes.length → ∃ nd, net.nodes[k]? = some nd ∧
      nd.node_id = k ∧ (getNeighbors nd).Nodup ∧
      ∀ j ∈ getNeighbors nd, j < net.nodes.length ∧ adj net j k) :
    wfNet net = true := by
  unfold wfNet
  rw [List.all_eq_true]
  intro k hkmem
  have hk := List.mem_range.mp hkmem
  obtain ⟨nd, hg, hid, hnodup, hconn⟩ := h k hk
  unfold wfNode
  rw [hg]
  simp only [Bool.and_eq_true, decide_eq_true_eq, List.all_eq_true]
  refine ⟨⟨hid, hnodup⟩, ?_⟩
  intro p hp
  have hj : p.1 ∈ getNeighbors nd := List.mem_map.mpr ⟨p, hp, rfl⟩
  obtain ⟨hlt, hadj⟩ := hconn p.1 hj
  refine ⟨hlt, ?_⟩
  obtain ⟨other, hg2, hmem⟩ := hadj
  rw [hg2]
  simpa using hmem

theorem wfNet_idsDense {net : Network} (h : wfNet net = true) : idsDense net := by
  intro k nd hg
  have hk : k < net.nodes.length := (List.getElem?_eq_some_iff.mp hg).1
  obtain ⟨nd', hg', hid, _, _⟩ := wfNode_elim (wfNet_node h hk)
  rw [hg] at hg'
  injection hg' with he
  rw [← he] at hid
  exact hid

theorem wfNet_keysBounded {net : Network} (h : wfNet net = true) :
    keysBounded net := by
  intro k nd hg j hj
  have hk : k < net.nodes.length := (List.getElem?_eq_some_iff.mp hg).1
  obtain ⟨nd', hg', _, _, hconn⟩ := wfNode_elim (wfNet_node h hk)
  rw [hg] at hg'
  injection hg' with he
  subst he
  exact (hconn j hj).1

theorem wfNet_adj_symm {net : Network} (h : wfNet net = true) :
    Symmetric (adj net) := by
  intro i j hadj
  obtain ⟨nd, hg, hj⟩ := hadj
  have hk : i < net.nodes.length := (List.getElem?_eq_some_iff.mp hg).1
  obtain ⟨nd', hg', _, _, hconn⟩ := wfNode_elim (wfNet_node h hk)
  rw [hg] at hg'
  injection hg' with he
  subst he
  exact (hconn j hj).2

theorem Reach_symm {net : Network} (h : wfNet net = true) :
    Symmetric (Reach net) :=
  Relation.ReflTransGen.symmetric (wfNet_adj_symm h)

theorem Reach_mono {net net' : Network}
    (hmono : ∀ i j, adj net i j → adj net' i j) {i j : Nat}
    (hr : Reach net i j) : Reach net' i j :=
  Relation.ReflTransGen.mono hmono hr

theorem bfsLoop_nil (net : Network) (visited : List Nat) :
    bfsLoop net visited [] = .ok visited := by
  rw [bfsLoop]

theorem bfsLoop_cons (net : Network) (visited : List Nat) (c : Nat)
    (rest : List Nat) (nd : Node) (hg : net.nodes[c]? = some nd) :
    bfsLoop net visited (c :: rest) =
      bfsLoop net (enqueueFresh nd.connections visited rest).1
        (enqueueFresh nd.connections visited rest).2 := by
  rw [bfsLoop]
  split
  · rename_i hg2
    rw [hg] at hg2
    exact Option.noConfusion hg2
  · rename_i nd2 hg2
    rw [hg] at hg2
    injection hg2 with he
    subst he
    rfl

theorem enqueueFresh_spec (l : List (Nat × ℚ)) :
    ∀ v q, (∀ x ∈ q, x ∈ v) →
      (∀ x ∈ v, x ∈ (enqueueFresh l v q).1) ∧
      (∀ x ∈ (enqueueFresh l v q).1, x ∈ v ∨ x ∈ l.map Prod.fst) ∧
      (v.Nodup → (enqueueFresh l v q).1.Nodup) ∧
      (∀ x ∈ (enqueueFresh l v q).2, x ∈ (enqueueFresh l v q).1) ∧
      (∀ k ∈ l.map Prod.fst, k ∈ (enqueueFresh l v q).1) ∧
      (∀ k ∈ l.map Prod.fst, k ∉ v → k ∈ (enqueueFresh l v q).2) ∧
      (∀ x ∈ q, x ∈ (enqueueFresh l v q).2) := by
  induction l with
  | nil =>
    intro v q hqv
    simp only [enqueueFresh, List.map_nil]
    exact ⟨fun x hx => hx, fun x hx => Or.inl hx, fun h => h, hqv,
      by simp, by simp, fun x hx => hx⟩
  | cons p rest ih =>
    intro v q hqv
    obtain ⟨i, c⟩ := p
    by_cases hi : i ∈ v
    · have he : enqueueFresh ((i, c) :: rest) v q = enqueueFresh rest v q := by
        simp [enqueueFresh, hi]
      rw [he]
      obtain ⟨e1, e2, e3, e4, e5, e6, e7⟩ := ih v q hqv
      refine ⟨e1, ?_, e3, e4, ?_, ?_, e7⟩
      · intro x hx
        rcases e2 x hx with h | h
        · exact Or.inl h
        · exact Or.inr (by simp [h])
      · intro k hk
        simp only [List.map_cons, List.mem_cons] at hk
        rcases hk with rfl | hk
        · exact e1 k hi
        · exact e5 k hk
      · intro k hk hkv
        simp only [List.map_cons, List.mem_cons] at hk
        rcases hk with rfl | hk
        · exact absurd hi hkv
        · exact e6 k hk hkv
    · have he : enqueueFresh ((i, c) :: rest) v q =
          enqueueFresh rest (i :: v) (q ++ [i]) := by
        simp [enqueueFresh, hi]
      rw [he]
      have hqv2 : ∀ x ∈ q ++ [i], x ∈ i :: v := by
        intro x hx
        rcases List.mem_append.mp hx with h | h
        · exact List.mem_cons_of_mem _ (hqv x h)
        · simp only [List.mem_singleton] at h
          simp [h]
      obtain ⟨e1, e2, e3, e4, e5, e6, e7⟩ := ih (i :: v) (q ++ [i]) hqv2
      refine ⟨?_, ?_, ?_, e4, ?_, ?_, ?_⟩
      · intro x hx
        exact e1 x (List.mem_cons_of_mem _ hx)
      · intro x hx
        rcases e2 x hx with h | h
        · rcases List.mem_cons.mp h with rfl | h2
          · exact Or.inr (by simp)
          · exact Or.inl h2
        · exact Or.inr (by simp [h])
      · intro hv
        exact e3 (List.nodup_cons.mpr ⟨hi, hv⟩)
      · intro k hk
        simp only [List.map_cons, List.mem_cons] at hk
        rcases hk with rfl | hk
        · exact e1 k (by simp)
        · exact e5 k hk
      · intro k hk hkv
        simp only [List.map_cons, List.mem_cons] at hk
        rcases hk with rfl | hk
        · exact e7 k (by simp)
        · by_cases hki : k = i
          · subst hki
            exact e7 k (by simp)
          · exact e6 k hk (by simp [hki, hkv])
      · intro x hx
        exact e7 x (List.mem_append_left _ hx)

theorem getNeighbors_eq_map_fst (nd : Node) :
    getNeighbors nd = nd.connections.map Prod.fst := rfl

theorem bfsLoop_spec (net : Network) (hkb : keysBounded net) :
    ∀ visited queue, visited.Nodup →
      (∀ x ∈ visited, x < net.nodes.length) →
      (∀ x ∈ queue, x ∈ visited) →
      (∀ x ∈ visited, x ∉ queue → ∀ y, adj net x y → y ∈ visited) →
      ∃ v, bfsLoop net visited queue = .ok v ∧ v.Nodup ∧
        (∀ x ∈ v, x < net.nodes.length) ∧ (∀ x ∈ visited, x ∈ v) ∧
        (∀ x ∈ v, ∀ y, adj net x y → y ∈ v) := by
  intro visited queue
  induction visited, queue using bfsLoop.induct net with
  | case1 visited =>
    intro hnd hrange _ hcl
    refine ⟨visited, bfsLoop_nil net visited, hnd, hrange, fun x hx => hx, ?_⟩
    intro x hx y hy
    exact hcl x hx (by simp) y hy
  | case2 visited c rest hnone =>
    intro _ hrange hqv _
    have hc : c < net.nodes.length := hrange c (hqv c (by simp))
    rw [List.getElem?_eq_getElem hc] at hnone
    exact Option.noConfusion hnone
  | case3 visited c rest nd hg ih =>
    intro hnd hrange hqv hcl
    have hqv0 : ∀ x ∈ rest, x ∈ visited := fun x hx => hqv x (by simp [hx])
    obtain ⟨e1, e2, e3, e4, e5, e6, e7⟩ :=
      enqueueFresh_spec nd.connections visited rest hqv0
    have hkeys : ∀ j ∈ nd.connections.map Prod.fst, j < net.nodes.length := by
      intro j hj
      exact hkb c nd hg j (by rw [getNeighbors_eq_map_fst]; exact hj)
    have hnd2 := e3 hnd
    have hrange2 : ∀ x ∈ (enqueueFresh nd.connections visited rest).1,
        x < net.nodes.length := by
      intro x hx
      rcases e2 x hx with h | h
      · exact hrange x h
      · exact hkeys x h
    have hcl2 : ∀ x ∈ (enqueueFresh nd.connections visited rest).1,
        x ∉ (enqueueFresh nd.connections visited rest).2 →
        ∀ y, adj net x y → y ∈ (enqueueFresh nd.connections visited rest).1 := by
      intro x hx hxq y hy
      rcases e2 x hx with hxv | hxk
      · by_cases hxc : x = c
        · subst hxc
          obtain ⟨nd2, hg2, hyk⟩ := hy
          rw [hg] at hg2
          injection hg2 with he2
          subst he2
          exact e5 y (by rw [← getNeighbors_eq_map_fst]; exact hyk)
        · have hxrest : x ∉ rest := fun hr => hxq (e7 x hr)
          have hxq0 : x ∉ c :: rest := by
            simp only [List.mem_cons]
            rintro (rfl | hr)
            · exact hxc rfl
            · exact hxrest hr
          exact e1 y (hcl x hxv hxq0 y hy)
      · by_cases hxv : x ∈ visited
        · by_cases hxc : x = c
          · subst hxc
            obtain ⟨nd2, hg2, hyk⟩ := hy
            rw [hg] at hg2
            injection hg2 with he2
            subst he2
            exact e5 y (by rw [← getNeighbors_eq_map_fst]; exact hyk)
          · have hxrest : x ∉ rest := fun hr => hxq (e7 x hr)
            have hxq0 : x ∉ c :: rest := by
              simp only [List.mem_cons]
              rintro (rfl | hr)
              · exact hxc rfl
              · exact hxrest hr
            exact e1 y (hcl x hxv hxq0 y hy)
        · exact absurd (e6 x hxk hxv) hxq
    obtain ⟨v, hok, hv1, hv2, hv3, hv4⟩ := ih hnd2 hrange2 e4 hcl2
    refine ⟨v, ?_, hv1, hv2, ?_, hv4⟩
    · rw [bfsLoop_cons net visited c rest nd hg]
      exact hok
    · intro x hx
      exact hv3 x (e1 x hx)

theorem dfsLoop_nil (net : Network) (comp : List Nat) :
    dfsLoop net comp [] = .ok comp := by
  rw [dfsLoop]

theorem dfsLoop_mem (net : Network) (comp : List Nat) (c : Nat) (rest : List Nat)
    (hc : c ∈ comp) : dfsLoop net comp (c :: rest) = dfsLoop net comp rest := by
  rw [dfsLoop]
  rw [if_pos hc]

theorem dfsLoop_fresh (net : Network) (comp : List Nat) (c : Nat) (rest : List Nat)
    (nd : Node) (hc : c ∉ comp) (hg : net.nodes[c]? = some nd) :
    dfsLoop net comp (c :: rest) = dfsLoop net (c :: comp)
      (((getNeighbors nd).filter (fun nb => !((c :: comp).contains nb))).reverse
        ++ rest) := by
  rw [dfsLoop]
  rw [if_neg hc]
  split
  · rename_i hg2
    rw [hg] at hg2
    exact Option.noConfusion hg2
  · rename_i nd2 hg2
    rw [hg] at hg2
    injection hg2 with he
    subst he
    rfl

theorem dfsLoop_spec (net : Network) (hkb : keysBounded net) (s : Nat) :
    ∀ comp stack, (∀ x ∈ comp, Reach net s x ∧ x < net.nodes.length) →
      (∀ x ∈ stack, Reach net s x ∧ x < net.nodes.length) →
      ∃ cf, dfsLoop net comp stack = .ok cf ∧
        (∀ x ∈ comp, x ∈ cf) ∧ (∀ x ∈ stack, x ∈ cf) ∧
        (∀ x ∈ cf, Reach net s x ∧ x < net.nodes.length) := by
  intro comp stack
  induction comp, stack using dfsLoop.induct net with
  | case1 comp =>
    intro hcomp _
    exact ⟨comp, dfsLoop_nil net comp, fun x hx => hx, by simp, hcomp⟩
  | case2 comp c rest hc ih =>
    intro hcomp hstack
    obtain ⟨cf, hok, h1, h2, h3⟩ := ih hcomp
      (fun x hx => hstack x (by simp [hx]))
    refine ⟨cf, ?_, h1, ?_, h3⟩
    · rw [dfsLoop_mem net comp c rest hc]
      exact hok
    · intro x hx
      rcases List.mem_cons.mp hx with rfl | h
      · exact h1 x hc
      · exact h2 x h
  | case3 comp c rest hc hnone =>
    intro _ hstack
    have hlt := (hstack c (by simp)).2
    rw [List.getElem?_eq_getElem hlt] at hnone
    exact Option.noConfusion hnone
  | case4 comp c rest hc nd hg ih =>
    intro hcomp hstack
    have hcreach := hstack c (by simp)
    have hcomp2 : ∀ x ∈ c :: comp, Reach net s x ∧ x < net.nodes.length := by
      intro x hx
      rcases List.mem_cons.mp hx with rfl | h
      · exact hcreach
      · exact hcomp x h
    have hstack2 : ∀ x ∈ ((getNeighbors nd).filter
        (fun nb => !((c :: comp).contains nb))).reverse ++ rest,
        Reach net s x ∧ x < net.nodes.length := by
      intro x hx
      rcases List.mem_append.mp hx with h | h
      · have hxn : x ∈ getNeighbors nd :=
          List.mem_of_mem_filter (List.mem_reverse.mp h)
        have hadj : adj net c x := ⟨nd, hg, hxn⟩
        exact ⟨hcreach.1.tail hadj, hkb c nd hg x hxn⟩
      · exact hstack x (by simp [h])
    obtain ⟨cf, hok, h1, h2, h3⟩ := ih hcomp2 hstack2
    refine ⟨cf, ?_, ?_, ?_, h3⟩
    · rw [dfsLoop_fresh net comp c rest nd hc hg]
      exact hok
    · intro x hx
      exact h1 x (by simp [hx])
    · intro x hx
      rcases List.mem_cons.mp hx with rfl | h
      · exact h1 x (by simp)
      · exact h2 x (List.mem_append_right _ h)

theorem componentsGo_spec (net : Network) (hkb : keysBounded net) :
    ∀ ids visited comps, (∀ x ∈ ids, x < net.nodes.length) →
      (∀ x ∈ visited, ∃ c, c ∈ comps ∧ x ∈ c) →
      ∃ comps2, componentsGo net ids visited comps = .ok comps2 ∧
        (∀ c ∈ comps, c ∈ comps2) ∧
        (∀ i ∈ ids, ∃ c, c ∈ comps2 ∧ i ∈ c) ∧
        (∀ c ∈ comps2, c ∈ comps ∨ ∃ s, s ∈ c ∧
          ∀ x ∈ c, Reach net s x ∧ x < net.nodes.length) := by
  intro ids
  induction ids with
  | nil =>
    intro visited comps _ _
    exact ⟨comps, rfl, fun c hc => hc, by simp, fun c hc => Or.inl hc⟩
  | cons i rest ih =>
    intro visited comps hbound hvis
    by_cases hi : i ∈ visited
    · have hstep : componentsGo net (i :: rest) visited comps =
          componentsGo net rest visited comps := by
        simp [componentsGo, hi]
      rw [hstep]
      obtain ⟨comps2, hok, h1, h2, h3⟩ := ih visited comps
        (fun x hx => hbound x (by simp [hx])) hvis
      refine ⟨comps2, hok, h1, ?_, h3⟩
      intro j hj
      rcases List.mem_cons.mp hj with rfl | hjr
      · obtain ⟨c, hc, hjc⟩ := hvis j hi
        exact ⟨c, h1 c hc, hjc⟩
      · exact h2 j hjr
    · obtain ⟨cf, hdfs, _, hseed, hmem⟩ := dfsLoop_spec net hkb i [] [i]
        (by simp)
        (by
          intro x hx
          simp only [List.mem_singleton] at hx
          subst hx
          exact ⟨Relation.ReflTransGen.refl, hbound x (by simp)⟩)
      have hicf : i ∈ cf := hseed i (by simp)
      have hstep : componentsGo net (i :: rest) visited comps =
          componentsGo net rest (visited ++ cf) (comps ++ [cf]) := by
        simp only [componentsGo, hi, if_false, hdfs, ok_bind]
      rw [hstep]
      have hvis2 : ∀ x ∈ visited ++ cf, ∃ c, c ∈ comps ++ [cf] ∧ x ∈ c := by
        intro x hx
        rcases List.mem_append.mp hx with h | h
        · obtain ⟨c, hc, hxc⟩ := hvis x h
          exact ⟨c, List.mem_append_left _ hc, hxc⟩
        · exact ⟨cf, by simp, h⟩
      obtain ⟨comps2, hok, h1, h2, h3⟩ := ih (visited ++ cf) (comps ++ [cf])
        (fun x hx => hbound x (by simp [hx])) hvis2
      refine ⟨comps2, hok, ?_, ?_, ?_⟩
      · intro c hc
        exact h1 c (List.mem_append_left _ hc)
      · intro j hj
        rcases List.mem_cons.mp hj with rfl | hjr
        · exact ⟨cf, h1 cf (by simp), hicf⟩
        · exact h2 j hjr
      · intro c hc
        rcases h3 c hc with hcin | hseeded
        · rcases List.mem_append.mp hcin with h | h
          · exact Or.inl h
          · simp only [List.mem_singleton] at h
            subst h
            exact Or.inr ⟨i, hicf, hmem⟩
        · exact Or.inr hseeded

theorem componentsOf_spec (net : Network) (hkb : keysBounded net) :
    ∃ comps, componentsOf net = .ok comps ∧
      (∀ j, j < net.nodes.length → ∃ c, c ∈ comps ∧ j ∈ c) ∧
      (∀ c ∈ comps, ∃ s, s ∈ c ∧
        ∀ x ∈ c, Reach net s x ∧ x < net.nodes.length) := by
  obtain ⟨comps2, hok, _, h2, h3⟩ := componentsGo_spec net hkb
    (List.range net.nodes.length) [] []
    (by intro x hx; exact List.mem_range.mp hx) (by simp)
  refine ⟨comps2, hok, ?_, ?_⟩
  · intro j hj
    exact h2 j (List.mem_range.mpr hj)
  · intro c hc
    rcases h3 c hc with h | h
    · simp at h
    · exact h

theorem isNetworkFullyConnected_ok (net : Network) (hkb : keysBounded net)
    (hne : net.nodes ≠ []) :
    ∃ v : List Nat,
      isNetworkFullyConnected net = .ok (decide (v.length = net.nodes.length)) ∧
      v.Nodup ∧ (∀ x ∈ v, x < net.nodes.length) ∧ 0 ∈ v ∧
      (∀ x ∈ v, ∀ y, adj net x y → y ∈ v) := by
  have h0 : 0 < net.nodes.length := List.length_pos.mpr hne
  obtain ⟨v, hok, hvnd, hvrange, hvsub, hvcl⟩ := bfsLoop_spec net hkb [0] [0]
    (by simp) (by simpa using h0) (by simp)
    (by
      intro x hx hxq
      simp only [List.mem_singleton] at hx
      subst hx
      exact absurd (by simp) hxq)
  refine ⟨v, ?_, hvnd, hvrange, hvsub 0 (by simp), hvcl⟩
  rw [isNetworkFullyConnected]
  rw [if_neg hne]
  simp only [hok, ok_bind]

theorem isNetworkFullyConnected_true (net : Network) (hkb : keysBounded net)
    (hne : net.nodes ≠ []) (hconn : ∀ j, j < net.nodes.length → Reach net 0 j) :
    isNetworkFullyConnected net = .ok true := by
  obtain ⟨v, hok, hvnd, hvrange, h0v, hvcl⟩ :=
    isNetworkFullyConnected_ok net hkb hne
  have hreach : ∀ j, Reach net 0 j → j ∈ v := by
    intro j hr
    induction hr with
    | refl => exact h0v
    | tail hab hlast ih => exact hvcl _ ih _ hlast
  have hall : ∀ j, j < net.nodes.length → j ∈ v :=
    fun j hj => hreach j (hconn j hj)
  have hlen : v.length = net.nodes.length := by
    have hfin : v.toFinset = (List.range net.nodes.length).toFinset := by
      ext x
      simp only [List.mem_toFinset, List.mem_range]
      exact ⟨fun hx => hvrange x hx, fun hx => hall x hx⟩
    have h1 : v.toFinset.card = v.length := List.toFinset_card_of_nodup hvnd
    rw [hfin] at h1
    have h2 : (List.range net.nodes.length).toFinset.card = net.nodes.length := by
      rw [List.toFinset_card_of_nodup (List.nodup_range _), List.length_range]
    rw [h2] at h1
    exact h1.symm
  rw [hok, hlen]
  simp

/-- Consecutive components are joined by a bidirectional link. -/
def chainLinked (netF : Network) : List (List Nat) → Prop
  | c1 :: c2 :: rest =>
    (∃ x ∈ c1, ∃ y ∈ c2, adj netF x y ∧ adj netF y x) ∧
      chainLinked netF (c2 :: rest)
  | _ => True

theorem chain_all_reach (netF : Network) :
    ∀ comps, chainLinked netF comps →
      (∀ c ∈ comps, ∀ u ∈ c, ∀ w ∈ c, Reach netF u w) →
      ∀ c ∈ comps, ∀ c' ∈ comps, ∀ u ∈ c, ∀ w ∈ c', Reach netF u w := by
  intro comps
  induction comps with
  | nil =>
    intro _ _ c hc
    simp at hc
  | cons c1 rest ih =>
    intro hch hmut c hc c' hc' u hu w hw
    cases rest with
    | nil =>
      simp only [List.mem_singleton] at hc hc'
      subst hc
      subst hc'
      exact hmut _ (by simp) u hu w hw
    | cons c2 rest2 =>
      obtain ⟨⟨x, hx, y, hy, hxy, hyx⟩, hch2⟩ := hch
      have hmut2 : ∀ d ∈ c2 :: rest2, ∀ u2 ∈ d, ∀ w2 ∈ d, Reach netF u2 w2 :=
        fun d hd => hmut d (by simp [hd])
      rcases List.mem_cons.mp hc with hcc | hcrest
      · rcases List.mem_cons.mp hc' with hcc2 | hc2rest
        · refine hmut c hc u hu w ?_
          rw [hcc2, ← hcc] at hw
          exact hw
        · have h1 : Reach netF u x := hmut c hc u hu x (by rw [hcc]; exact hx)
          have h2 : Reach netF y w :=
            ih hch2 hmut2 c2 (by simp) c' hc2rest y hy w hw
          exact (h1.tail hxy).trans h2
      · rcases List.mem_cons.mp hc' with hcc2 | hc2rest
        · have h1 : Reach netF u y :=
            ih hch2 hmut2 c hcrest c2 (by simp) u hu y hy
          have h2 : Reach netF x w := hmut c' hc' x (by rw [hcc2]; exact hx) w hw
          exact (h1.tail hyx).trans h2
        · exact ih hch2 hmut2 c hcrest c' hc2rest u hu w hw

theorem closestPairGo_some (net : Network) :
    ∀ (ps : List (Nat × Nat)) (p0 : Nat × Nat) (bd : Cost),
      (∀ p ∈ ps, p.1 < net.nodes.length ∧ p.2 < net.nodes.length) →
      ∃ q, closestPairGo net ps (some p0) bd = .ok (some q) ∧
        (q = p0 ∨ q ∈ ps) := by
  intro ps
  induction ps with
  | nil =>
    intro p0 bd _
    exact ⟨p0, rfl, Or.inl rfl⟩
  | cons p rest ih =>
    intro p0 bd hb
    obtain ⟨a, b⟩ := p
    have ha : a < net.nodes.length := (hb (a, b) (by simp)).1
    have hbb : b < net.nodes.length := (hb (a, b) (by simp)).2
    have hga : getIdx net a = .ok net.nodes[a] := by
      unfold getIdx
      rw [List.getElem?_eq_getElem ha]
    have hgb : getIdx net b = .ok net.nodes[b] := by
      unfold getIdx
      rw [List.getElem?_eq_getElem hbb]
    have hrest : ∀ q ∈ rest, q.1 < net.nodes.length ∧ q.2 < net.nodes.length :=
      fun q hq => hb q (by simp [hq])
    by_cases hlt : ((distSq net.nodes[a] net.nodes[b] : ℚ) : Cost) < bd
    · obtain ⟨q, hok, hmem⟩ := ih (a, b) _ hrest
      refine ⟨q, ?_, ?_⟩
      · simp only [closestPairGo, hga, ok_bind, hgb, if_pos hlt]
        exact hok
      · rcases hmem with rfl | h
        · exact Or.inr (by simp)
        · exact Or.inr (by simp [h])
    · obtain ⟨q, hok, hmem⟩ := ih p0 bd hrest
      refine ⟨q, ?_, ?_⟩
      · simp only [closestPairGo, hga, ok_bind, hgb, if_neg hlt]
        exact hok
      · rcases hmem with rfl | h
        · exact Or.inl rfl
        · exact Or.inr (by simp [h])

theorem closestPair_spec (net : Network) (c1 c2 : List Nat)
    (hc1 : c1 ≠ []) (hc2 : c2 ≠ [])
    (hb1 : ∀ x ∈ c1, x < net.nodes.length)
    (hb2 : ∀ x ∈ c2, x < net.nodes.length) :
    ∃ x y, closestPair net c1 c2 = .ok (some (x, y)) ∧ x ∈ c1 ∧ y ∈ c2 := by
  obtain ⟨a, c1', rfl⟩ := List.exists_cons_of_ne_nil hc1
  obtain ⟨b, c2', rfl⟩ := List.exists_cons_of_ne_nil hc2
  have hpairs : ∀ p ∈ (((a :: c1').map
      (fun x => (b :: c2').map (fun y => (x, y)))).flatten),
      p.1 ∈ a :: c1' ∧ p.2 ∈ b :: c2' := by
    intro p hp
    simp only [List.mem_flatten, List.mem_map] at hp
    obtain ⟨l, ⟨x, hx, rfl⟩, hpl⟩ := hp
    obtain ⟨y, hy, rfl⟩ := List.mem_map.mp hpl
    exact ⟨hx, hy⟩
  have hbound : ∀ p ∈ (((a :: c1').map
      (fun x => (b :: c2').map (fun y => (x, y)))).flatten),
      p.1 < net.nodes.length ∧ p.2 < net.nodes.length := by
    intro p hp
    obtain ⟨h1, h2⟩ := hpairs p hp
    exact ⟨hb1 p.1 h1, hb2 p.2 h2⟩
  have hflat : (((a :: c1').map
      (fun x => (b :: c2').map (fun y => (x, y)))).flatten) =
      (a, b) :: ((c2'.map (fun y => (a, y))) ++
        ((c1'.map (fun x => (b :: c2').map (fun y => (x, y)))).flatten)) := by
    simp [List.flatten]
  have ha : a < net.nodes.length := hb1 a (by simp)
  have hbb : b < net.nodes.length := hb2 b (by simp)
  have hga : getIdx net a = .ok net.nodes[a] := by
    unfold getIdx
    rw [List.getElem?_eq_getElem ha]
  have hgb : getIdx net b = .ok net.nodes[b] := by
    unfold getIdx
    rw [List.getElem?_eq_getElem hbb]
  have hrest : ∀ p ∈ ((c2'.map (fun y => (a, y))) ++
      ((c1'.map (fun x => (b :: c2').map (fun y => (x, y)))).flatten)),
      p.1 < net.nodes.length ∧ p.2 < net.nodes.length := by
    intro p hp
    refine hbound p ?_
    rw [hflat]
    exact List.mem_cons_of_mem _ hp
  obtain ⟨q, hok, hmem⟩ := closestPairGo_some net _ (a, b)
    ((distSq net.nodes[a] net.nodes[b] : ℚ) : Cost) hrest
  refine ⟨q.1, q.2, ?_, ?_, ?_⟩
  · unfold closestPair
    rw [hflat]
    simp only [closestPairGo, hga, ok_bind, hgb,
      if_pos (WithTop.coe_lt_top (distSq net.nodes[a] net.nodes[b]))]
    simpa using hok
  · rcases hmem with rfl | h
    · simp
    · have := hpairs q (by rw [hflat]; exact List.mem_cons_of_mem _ h)
      exact this.1
  · rcases hmem with rfl | h
    · simp
    · have := hpairs q (by rw [hflat]; exact List.mem_cons_of_mem _ h)
      exact this.2

theorem getNeighbors_widenRange (d : ℚ) (m : Node) :
    getNeighbors (widenRange d m) = getNeighbors m := rfl

theorem mem_getNeighbors_addConnection (m : Node) (b : Nat) (d : ℚ) (j : Nat) :
    j ∈ getNeighbors (addConnection m b d) ↔ j ∈ getNeighbors m ∨ j = b := by
  show j ∈ (ainsert m.connections b d).map Prod.fst ↔ _
  exact mem_map_fst_ainsert m.connections b j d

theorem adj_modifyIdx_mono (net : Network) (i : Nat) (f : Node → Node)
    (hf : ∀ (m : Node) (j : Nat), j ∈ getNeighbors m → j ∈ getNeighbors (f m)) :
    ∀ u w, adj net u w → adj (modifyIdx net i f) u w := by
  intro u w hadj
  obtain ⟨nd, hg, hw⟩ := hadj
  by_cases hu : u = i
  · subst hu
    refine ⟨f nd, ?_, hf nd w hw⟩
    rw [getElem?_modifyIdx, if_pos rfl, hg]
    rfl
  · exact ⟨nd, by rw [getElem?_modifyIdx, if_neg hu]; exact hg, hw⟩

theorem keysBounded_modifyIdx (net : Network) (i : Nat) (f : Node → Node)
    (hkb : keysBounded net)
    (hf : ∀ (m : Node) (j : Nat), j ∈ getNeighbors (f m) →
      j ∈ getNeighbors m ∨ j < net.nodes.length) :
    keysBounded (modifyIdx net i f) := by
  intro k nd hg j hj
  rw [length_modifyIdx]
  rw [getElem?_modifyIdx] at hg
  by_cases hk : k = i
  · rw [if_pos hk] at hg
    cases hg0 : net.nodes[k]? with
    | none => rw [hg0] at hg; cases hg
    | some m =>
      rw [hg0] at hg
      injection hg with he
      subst he
      rcases hf m j hj with h | h
      · exact hkb k m hg0 j h
      · exact h
  · rw [if_neg hk] at hg
    exact hkb k nd hg j hj

theorem adj_modifyIdx_self (net : Network) (i : Nat) (f : Node → Node) (w : Nat)
    (hi : i < net.nodes.length)
    (hw : ∀ m : Node, w ∈ getNeighbors (f m)) :
    adj (modifyIdx net i f) i w := by
  refine ⟨f net.nodes[i], ?_, hw _⟩
  rw [getElem?_modifyIdx, if_pos rfl, List.getElem?_eq_getElem hi]
  rfl

theorem linkOne_spec (rng : Nat → ℚ) (net : Network) (ridx : Nat)
    (c1 c2 : List Nat) (hc1 : c1 ≠ []) (hc2 : c2 ≠ [])
    (hb1 : ∀ x ∈ c1, x < net.nodes.length)
    (hb2 : ∀ x ∈ c2, x < net.nodes.length)
    (hkb : keysBounded net) :
    ∃ net4 r4, linkOne rng net ridx c1 c2 = .ok (net4, r4) ∧
      net4.nodes.length = net.nodes.length ∧ keysBounded net4 ∧
      (∀ u w, adj net u w → adj net4 u w) ∧
      ∃ x ∈ c1, ∃ y ∈ c2, adj net4 x y ∧ adj net4 y x := by
  obtain ⟨x, y, hcp, hx, hy⟩ := closestPair_spec net c1 c2 hc1 hc2 hb1 hb2
  have hxn : x < net.nodes.length := hb1 x hx
  have hyn : y < net.nodes.length := hb2 y hy
  have hgx : getIdx net x = .ok net.nodes[x] := by
    unfold getIdx
    rw [List.getElem?_eq_getElem hxn]
  have hgy : getIdx net y = .ok net.nodes[y] := by
    unfold getIdx
    rw [List.getElem?_eq_getElem hyn]
  have heq : linkOne rng net ridx c1 c2 = .ok
      (modifyIdx (modifyIdx (modifyIdx (modifyIdx net
          x (widenRange (distSq net.nodes[x] net.nodes[y])))
          y (widenRange (distSq net.nodes[x] net.nodes[y])))
          x (fun n => addConnection n y (rng ridx)))
          y (fun n => addConnection n x (rng ridx)), ridx + 1) := by
    simp only [linkOne, hcp, ok_bind, hgx, hgy]
  set N1 := modifyIdx net x (widenRange (distSq net.nodes[x] net.nodes[y]))
    with hN1
  set N2 := modifyIdx N1 y (widenRange (distSq net.nodes[x] net.nodes[y]))
    with hN2
  set N3 := modifyIdx N2 x (fun n => addConnection n y (rng ridx)) with hN3
  set N4 := modifyIdx N3 y (fun n => addConnection n x (rng ridx)) with hN4
  have hlen1 : N1.nodes.length = net.nodes.length := length_modifyIdx _ _ _
  have hlen2 : N2.nodes.length = net.nodes.length := by
    rw [hN2, length_modifyIdx, hlen1]
  have hlen3 : N3.nodes.length = net.nodes.length := by
    rw [hN3, length_modifyIdx, hlen2]
  have hlen4 : N4.nodes.length = net.nodes.length := by
    rw [hN4, length_modifyIdx, hlen3]
  have hkb1 : keysBounded N1 := keysBounded_modifyIdx net x _ hkb
    (by
      intro m j hj
      rw [getNeighbors_widenRange] at hj
      exact Or.inl hj)
  have hkb2 : keysBounded N2 := keysBounded_modifyIdx N1 y _ hkb1
    (by
      intro m j hj
      rw [getNeighbors_widenRange] at hj
      exact Or.inl hj)
  have hkb3 : keysBounded N3 := keysBounded_modifyIdx N2 x _ hkb2
    (by
      intro m j hj
      rcases (mem_getNeighbors_addConnection m y (rng ridx) j).mp hj with h | rfl
      · exact Or.inl h
      · exact Or.inr (by rw [hlen2]; exact hyn))
  have hkb4 : keysBounded N4 := keysBounded_modifyIdx N3 y _ hkb3
    (by
      intro m j hj
      rcases (mem_getNeighbors_addConnection m x (rng ridx) j).mp hj with h | rfl
      · exact Or.inl h
      · exact Or.inr (by rw [hlen3]; exact hxn))
  have hm1 : ∀ u w, adj net u w → adj N1 u w :=
    adj_modifyIdx_mono net x _ (by
      intro m j hj
      rw [getNeighbors_widenRange]
      exact hj)
  have hm2 : ∀ u w, adj N1 u w → adj N2 u w :=
    adj_modifyIdx_mono N1 y _ (by
      intro m j hj
      rw [getNeighbors_widenRange]
      exact hj)
  have hm3 : ∀ u w, adj N2 u w → adj N3 u w :=
    adj_modifyIdx_mono N2 x _ (by
      intro m j hj
      exact (mem_getNeighbors_addConnection m y (rng ridx) j).mpr (Or.inl hj))
  have hm4 : ∀ u w, adj N3 u w → adj N4 u w :=
    adj_modifyIdx_mono N3 y _ (by
      intro m j hj
      exact (mem_getNeighbors_addConnection m x (rng ridx) j).mpr (Or.inl hj))
  have hadj3 : adj N3 x y :=
    adj_modifyIdx_self N2 x _ y (by rw [hlen2]; exact hxn)
      (fun m => (mem_getNeighbors_addConnection m y (rng ridx) y).mpr (Or.inr rfl))
  have hadj4 : adj N4 y x :=
    adj_modifyIdx_self N3 y _ x (by rw [hlen3]; exact hyn)
      (fun m => (mem_getNeighbors_addConnection m x (rng ridx) x).mpr (Or.inr rfl))
  refine ⟨N4, ridx + 1, heq, hlen4, hkb4, ?_, x, hx, y, hy, hm4 x y hadj3, hadj4⟩
  intro u w h
  exact hm4 u w (hm3 u w (hm2 u w (hm1 u w h)))

theorem linkChain_spec (rng : Nat → ℚ) :
    ∀ (comps : List (List Nat)) (net : Network) (ridx : Nat),
      (∀ c ∈ comps, c ≠ [] ∧ ∀ x ∈ c, x < net.nodes.length) →
      keysBounded net →
      ∃ netF rF, linkChain rng comps net ridx = .ok (netF, rF) ∧
        netF.nodes.length = net.nodes.length ∧ keysBounded netF ∧
        (∀ u w, adj net u w → adj netF u w) ∧ chainLinked netF comps := by
  intro comps
  induction comps with
  | nil =>
    intro net ridx _ hkb
    exact ⟨net, ridx, rfl, rfl, hkb, fun u w h => h, trivial⟩
  | cons c1 rest ih =>
    cases rest with
    | nil =>
      intro net ridx _ hkb
      exact ⟨net, ridx, rfl, rfl, hkb, fun u w h => h, trivial⟩
    | cons c2 rest2 =>
      intro net ridx hcomps hkb
      obtain ⟨h1ne, h1b⟩ := hcomps c1 (by simp)
      obtain ⟨h2ne, h2b⟩ := hcomps c2 (by simp)
      obtain ⟨n4, r4, heq, hlen, hkb4, hmono, x, hx, y, hy, hxy, hyx⟩ :=
        linkOne_spec rng net ridx c1 c2 h1ne h2ne h1b h2b hkb
      obtain ⟨netF, rF, heqF, hlenF, hkbF, hmonoF, hchF⟩ := ih n4 r4
        (by
          intro c hc
          obtain ⟨hne2, hb2⟩ := hcomps c (by simp [hc])
          exact ⟨hne2, fun z hz => by rw [hlen]; exact hb2 z hz⟩) hkb4
      refine ⟨netF, rF, ?_, by rw [hlenF, hlen], hkbF, ?_, ?_⟩
      · simp only [linkChain, heq, ok_bind]
        exact heqF
      · intro u w h
        exact hmonoF u w (hmono u w h)
      · exact ⟨⟨x, hx, y, hy, hmonoF x y hxy, hmonoF y x hyx⟩, hchF⟩

theorem getNeighbors_dropConnection (y : Nat) (m : Node) :
    getNeighbors (dropConnection y m) = (aerase m.connections y).map Prod.fst := rfl

theorem nodeId_dropConnection (y : Nat) (m : Node) :
    (dropConnection y m).node_id = m.node_id := rfl

theorem nodup_getNeighbors_dropConnection (y : Nat) (m : Node)
    (h : (getNeighbors m).Nodup) : (getNeighbors (dropConnection y m)).Nodup := by
  rw [getNeighbors_dropConnection]
  exact List.Nodup.sublist ((aerase_sublist m.connections y).map Prod.fst) h

theorem mem_getNeighbors_dropConnection (y : Nat) (m : Node) (j : Nat)
    (hnd : (getNeighbors m).Nodup) :
    j ∈ getNeighbors (dropConnection y m) ↔ j ∈ getNeighbors m ∧ j ≠ y := by
  rw [getNeighbors_dropConnection]
  exact mem_map_fst_aerase hnd

theorem idsDense_modifyNode (net : Network) (i : Nat) (f : Node → Node)
    (hd : idsDense net) (hf : ∀ m : Node, (f m).node_id = m.node_id) :
    idsDense (modifyNode net i f) := by
  intro k nd hg
  rw [getElem?_modifyNode_dense hd] at hg
  by_cases hk : k = i
  · rw [if_pos hk] at hg
    cases hg0 : net.nodes[k]? with
    | none => rw [hg0] at hg; cases hg
    | some m =>
      rw [hg0] at hg
      injection hg with he
      subst he
      rw [hf m]
      exact hd k m hg0
  · rw [if_neg hk] at hg
    exact hd k nd hg

theorem find?_of_idsShift :
    ∀ (l : List Node) (off k : Nat),
      (∀ (i : Nat) (nd : Node), l[i]? = some nd → nd.node_id = off + i) →
      off ≤ k → k < off + l.length →
      List.find? (fun n => n.node_id = k) l = l[k - off]? := by
  intro l
  induction l with
  | nil =>
    intro off k _ h1 h2
    simp at h2
    omega
  | cons nd rest ih =>
    intro off k hids h1 h2
    have hnd : nd.node_id = off := by
      have := hids 0 nd (by simp)
      simpa using this
    by_cases hk : k = off
    · subst hk
      rw [List.find?_cons_of_pos _ (by simp [hnd])]
      simp
    · rw [List.find?_cons_of_neg _ (by simp [hnd, Ne.symm hk])]
      have hoff1 : off + 1 ≤ k := by omega
      have hrec := ih (off + 1) k
        (by
          intro i nd2 hg
          have := hids (i + 1) nd2 (by simpa using hg)
          omega)
        hoff1 (by simp at h2 ⊢; omega)
      rw [hrec]
      have hke : k - off = (k - (off + 1)) + 1 := by omega
      rw [hke]
      simp
  
theorem getNodeById_wf {net : Network} (hd : idsDense net) {k : Nat}
    (hk : k < net.nodes.length) :
    getNodeById net k = some net.nodes[k] := by
  unfold getNodeById
  have := find?_of_idsShift net.nodes 0 k
    (by
      intro i nd hg
      have := hd i nd hg
      omega)
    (by omega) (by omega)
  rw [this]
  simp

theorem wfNet_dropPair (net : Network) (hwf : wfNet net = true) (a b : Nat)
    (ha : a < net.nodes.length) (hb : b < net.nodes.length) :
    wfNet (modifyNode (modifyNode net a (dropConnection b)) b (dropConnection a))
      = true := by
  have hd : idsDense net := wfNet_idsDense hwf
  have hd1 : idsDense (modifyNode net a (dropConnection b)) :=
    idsDense_modifyNode net a _ hd (fun m => rfl)
  have hlen : (modifyNode (modifyNode net a (dropConnection b)) b
      (dropConnection a)).nodes.length = net.nodes.length := by
    rw [length_modifyNode, length_modifyNode]
  have hnode : ∀ k, k < net.nodes.length →
      ∃ ndk, (modifyNode (modifyNode net a (dropConnection b)) b
          (dropConnection a)).nodes[k]? = some ndk ∧ ndk.node_id = k ∧
        (getNeighbors ndk).Nodup ∧
        ∀ j, j ∈ getNeighbors ndk ↔ ∃ nd0, net.nodes[k]? = some nd0 ∧
          j ∈ getNeighbors nd0 ∧ ¬(k = a ∧ j = b) ∧ ¬(k = b ∧ j = a) := by
    intro k hk
    obtain ⟨nd0, hg0, hid0, hnodup0, hconn0⟩ := wfNode_elim (wfNet_node hwf hk)
    have hstep : (modifyNode (modifyNode net a (dropConnection b)) b
        (dropConnection a)).nodes[k]? =
        if k = b then ((if k = a then (net.nodes[k]?).map (dropConnection b)
            else net.nodes[k]?)).map (dropConnection a)
          else (if k = a then (net.nodes[k]?).map (dropConnection b)
            else net.nodes[k]?) := by
      rw [getElem?_modifyNode_dense hd1, getElem?_modifyNode_dense hd]
    by_cases hka : k = a <;> by_cases hkb : k = b
    · refine ⟨dropConnection a (dropConnection b nd0), ?_, hid0, ?_, ?_⟩
      · rw [hstep, if_pos hkb, if_pos hka, hg0]
        rfl
      · exact nodup_getNeighbors_dropConnection _ _
          (nodup_getNeighbors_dropConnection _ _ hnodup0)
      · intro j
        rw [mem_getNeighbors_dropConnection _ _ _
            (nodup_getNeighbors_dropConnection _ _ hnodup0),
          mem_getNeighbors_dropConnection _ _ _ hnodup0]
        constructor
        · rintro ⟨⟨hj, hjb⟩, hja⟩
          exact ⟨nd0, hg0, hj, fun hcon => hjb hcon.2, fun hcon => hja hcon.2⟩
        · rintro ⟨nd1, hg1, hj, h1, h2⟩
          rw [hg0] at hg1
          injection hg1 with he
          subst he
          exact ⟨⟨hj, fun he2 => h1 ⟨hka, he2⟩⟩, fun he2 => h2 ⟨hkb, he2⟩⟩
    · refine ⟨dropConnection b nd0, ?_, hid0, ?_, ?_⟩
      · rw [hstep, if_neg hkb, if_pos hka, hg0]
        rfl
      · exact nodup_getNeighbors_dropConnection _ _ hnodup0
      · intro j
        rw [mem_getNeighbors_dropConnection _ _ _ hnodup0]
        constructor
        · rintro ⟨hj, hjb⟩
          exact ⟨nd0, hg0, hj, fun hcon => hjb hcon.2, fun hcon => absurd hcon.1 hkb⟩
        · rintro ⟨nd1, hg1, hj, h1, h2⟩
          rw [hg0] at hg1
          injection hg1 with he
          subst he
          exact ⟨hj, fun he2 => h1 ⟨hka, he2⟩⟩
    · refine ⟨dropConnection a nd0, ?_, hid0, ?_, ?_⟩
      · rw [hstep, if_pos hkb, if_neg hka, hg0]
        rfl
      · exact nodup_getNeighbors_dropConnection _ _ hnodup0
      · intro j
        rw [mem_getNeighbors_dropConnection _ _ _ hnodup0]
        constructor
        · rintro ⟨hj, hja⟩
          exact ⟨nd0, hg0, hj, fun hcon => absurd hcon.1 hka, fun hcon => hja hcon.2⟩
        · rintro ⟨nd1, hg1, hj, h1, h2⟩
          rw [hg0] at hg1
          injection hg1 with he
          subst he
          exact ⟨hj, fun he2 => h2 ⟨hkb, he2⟩⟩
    · refine ⟨nd0, ?_, hid0, hnodup0, ?_⟩
      · rw [hstep, if_neg hkb, if_neg hka]
        exact hg0
      · intro j
        constructor
        · intro hj
          exact ⟨nd0, hg0, hj, fun hcon => absurd hcon.1 hka,
            fun hcon => absurd hcon.1 hkb⟩
        · rintro ⟨nd1, hg1, hj, _, _⟩
          rw [hg0] at hg1
          injection hg1 with he
          subst he
          exact hj
  apply wfNet_intro
  intro k hk2
  rw [hlen] at hk2
  obtain ⟨ndk, hgk, hidk, hndk, hiffk⟩ := hnode k hk2
  refine ⟨ndk, hgk, hidk, hndk, ?_⟩
  intro j hj
  obtain ⟨nd0, hg0, hj0, hg1, hg2⟩ := (hiffk j).mp hj
  have hjlt : j < net.nodes.length :=
    wfNet_keysBounded hwf k nd0 hg0 j hj0
  refine ⟨by rw [hlen]; exact hjlt, ?_⟩
  obtain ⟨ndj, hgj, hidj, hndj, hiffj⟩ := hnode j hjlt
  refine ⟨ndj, hgj, ?_⟩
  rw [hiffj k]
  have hsym : adj net j k := wfNet_adj_symm hwf ⟨nd0, hg0, hj0⟩
  obtain ⟨ndj0, hgj0, hkj0⟩ := hsym
  refine ⟨ndj0, hgj0, hkj0, ?_, ?_⟩
  · rintro ⟨rfl, rfl⟩
    exact hg2 ⟨rfl, rfl⟩
  · rintro ⟨rfl, rfl⟩
    exact hg1 ⟨rfl, rfl⟩

theorem ensure_branch_spec (rng : Nat → ℚ) (ridx : Nat) :
    ∀ M : Network, wfNet M = true → M.nodes ≠ [] →
      ∃ p, (do
          let c ← isNetworkFullyConnected M
          if c then Except.ok (M, ridx) else ensureFullyConnected rng M ridx)
          = Except.ok (p : Network × Nat) ∧
        isNetworkFullyConnected p.1 = .ok true := by
  intro M hwfM hneM
  have hkbM : keysBounded M := wfNet_keysBounded hwfM
  obtain ⟨v, hokM, hvnd, hvr, h0v, hvcl⟩ := isNetworkFullyConnected_ok M hkbM hneM
  by_cases hvl : v.length = M.nodes.length
  · refine ⟨(M, ridx), ?_, ?_⟩
    · simp only [hokM, ok_bind, hvl]
      simp
    · rw [hokM]
      simp [hvl]
  · obtain ⟨comps, hcomps, hcover, hcomp⟩ := componentsOf_spec M hkbM
    have hcompsGood : ∀ c ∈ comps, c ≠ [] ∧ ∀ x ∈ c, x < M.nodes.length := by
      intro c hc
      obtain ⟨s, hs, hall⟩ := hcomp c hc
      exact ⟨List.ne_nil_of_mem hs, fun x hx => (hall x hx).2⟩
    obtain ⟨netF, rF, hlc, hlenF, hkbF, hmonoF, hchain⟩ :=
      linkChain_spec rng comps M ridx hcompsGood hkbM
    have hmut : ∀ c ∈ comps, ∀ u ∈ c, ∀ w ∈ c, Reach netF u w := by
      intro c hc u hu w hw
      obtain ⟨s, hs, hall⟩ := hcomp c hc
      have h3 : Reach M u w := ((Reach_symm hwfM) (hall u hu).1).trans (hall w hw).1
      exact Reach_mono hmonoF h3
    have hallpairs := chain_all_reach netF comps hchain hmut
    have hconnF : ∀ j, j < netF.nodes.length → Reach netF 0 j := by
      intro j hj
      rw [hlenF] at hj
      obtain ⟨c0, hc0, h0c⟩ := hcover 0 (List.length_pos.mpr hneM)
      obtain ⟨cj, hcj, hjc⟩ := hcover j hj
      exact hallpairs c0 hc0 cj hcj 0 h0c j hjc
    have hneF : netF.nodes ≠ [] := by
      intro hcon
      rw [hcon] at hlenF
      exact hneM (List.length_eq_zero.mp hlenF.symm)
    have hokF : isNetworkFullyConnected netF = .ok true :=
      isNetworkFullyConnected_true netF hkbF hneF hconnF
    refine ⟨(netF, rF), ?_, hokF⟩
    have hdecf : decide (v.length = M.nodes.length) = false := by
      simp [hvl]
    simp only [hokM, ok_bind, hdecf, Bool.false_eq_true, if_false,
      ensureFullyConnected, hcomps, hlc, hokF, if_true]

/-- C7.  On a well-formed network with at least one node, `remove_link`
always returns normally and its resulting network passes
`_is_network_fully_connected`: either the removal kept the graph connected,
or the reconnection procedure (closest pairs between consecutive components,
widened ranges, fresh symmetric links) restored a single connected
component before returning. -/
theorem removeLink_preserves_connectivity (rng : Nat → ℚ) (net : Network)
    (ridx a b : Nat) (hwf : wfNet net = true) (hne : net.nodes ≠ [])
    (ha : a < net.nodes.length) (hb : b < net.nodes.length) :
    ∃ p, removeLink rng net ridx a b = .ok p ∧
      isNetworkFullyConnected p.1 = .ok true := by
  have hd : idsDense net := wfNet_idsDense hwf
  have hga : getNodeById net a = some net.nodes[a] := getNodeById_wf hd ha
  have hgb : getNodeById net b = some net.nodes[b] := getNodeById_wf hd hb
  by_cases hc1 : (alookup net.nodes[a].connections b).isSome = true
  · have hc2 : (alookup net.nodes[b].connections a).isSome = true := by
      rw [alookup_isSome_iff] at hc1 ⊢
      have hadj : adj net a b :=
        ⟨net.nodes[a], List.getElem?_eq_getElem ha, hc1⟩
      obtain ⟨nd, hg, hmem⟩ := wfNet_adj_symm hwf hadj
      rw [List.getElem?_eq_getElem hb] at hg
      injection hg with he
      rw [he]
      exact hmem
    have hred : removeLink rng net ridx a b =
        (do
          let c ← isNetworkFullyConnected (modifyNode (modifyNode net a
              (dropConnection b)) b (dropConnection a))
          if c then Except.ok (modifyNode (modifyNode net a
              (dropConnection b)) b (dropConnection a), ridx)
          else ensureFullyConnected rng (modifyNode (modifyNode net a
              (dropConnection b)) b (dropConnection a)) ridx) := by
      rw [removeLink]
      simp only [hga, hgb, hc1, hc2, if_true]
    have hwf2 : wfNet (modifyNode (modifyNode net a (dropConnection b)) b
        (dropConnection a)) = true := wfNet_dropPair net hwf a b ha hb
    have hne2 : (modifyNode (modifyNode net a (dropConnection b)) b
        (dropConnection a)).nodes ≠ [] := by
      intro hcon
      have hl : (modifyNode (modifyNode net a (dropConnection b)) b
          (dropConnection a)).nodes.length = net.nodes.length := by
        rw [length_modifyNode, length_modifyNode]
      rw [hcon] at hl
      exact hne (List.length_eq_zero.mp hl.symm)
    obtain ⟨p, hp1, hp2⟩ := ensure_branch_spec rng ridx _ hwf2 hne2
    exact ⟨p, by rw [hred]; exact hp1, hp2⟩
  · have hc2 : ¬ (alookup net.nodes[b].connections a).isSome = true := by
      intro hc2
      apply hc1
      rw [alookup_isSome_iff] at hc2 ⊢
      have hadj : adj net b a :=
        ⟨net.nodes[b], List.getElem?_eq_getElem hb, hc2⟩
      obtain ⟨nd, hg, hmem⟩ := wfNet_adj_symm hwf hadj
      rw [List.getElem?_eq_getElem ha] at hg
      injection hg with he
      rw [he]
      exact hmem
    have hred : removeLink rng net ridx a b =
        (do
          let c ← isNetworkFullyConnected net
          if c then Except.ok (net, ridx)
          else ensureFullyConnected rng net ridx) := by
      rw [removeLink]
      simp only [hga, hgb, hc1, hc2, Bool.false_eq_true, if_false]
    obtain ⟨p, hp1, hp2⟩ := ensure_branch_spec rng ridx net hwf hne
    exact ⟨p, by rw [hred]; exact hp1, hp2⟩

def c7wnet : Network := mkNet [mkNode 0 [(1, 1)] [], mkNode 1 [(0, 1)] []]

theorem removeLink_preserves_connectivity_witness :
    ∃ p, removeLink (fun _ => 1) c7wnet 0 0 1 = .ok p ∧
      isNetworkFullyConnected p.1 = .ok true :=
  removeLink_preserves_connectivity (fun _ => 1) c7wnet 0 0 1
    (by with_unfolding_all decide) (by with_unfolding_all decide)
    (by with_unfolding_all decide) (by with_unfolding_all decide)
